import Mathlib

/-!
Shallow embedding of the DXCrawler core (the two analyzers of the repository:
the library-version analyzer of the check-libs module and the markup-consistency
analyzer of lib/checks/check-same-markup.js), together with theorems settling
the specification claims about them.

Modelling conventions:
* JavaScript strings are Lean `String`s (processed as code-point lists; all
  concrete inputs used in theorems are ASCII, where code points and UTF-16
  units coincide).
* JavaScript numbers are modelled with exact arithmetic (`ℚ` plus NaN and
  infinities).  IEEE-754 doubles are exact on the integer ranges every theorem
  below exercises (all concrete values are far below 2^53).
* Fallible or callback-based code is modelled with `Option`/`Except`.
-/

namespace DXCrawler

/-- The character set of the JavaScript `\s` regex class and of `ToNumber`
whitespace trimming (principal members; exotic Unicode spaces that never occur
in the analysed texts are omitted). -/
def isSpaceJS (c : Char) : Bool :=
  c == ' ' || c == '\t' || c == '\n' || c == '\r' || c == '\x0b' || c == '\x0c' ||
  c == '\u00A0' || c == '\u2028' || c == '\u2029' || c == '\uFEFF'

/-- JavaScript line terminators (the characters `.` does not match). -/
def isLineTerm (c : Char) : Bool :=
  c == '\n' || c == '\r' || c == '\u2028' || c == '\u2029'

/-- Source `s.split(".")` for a one-character separator, on code-point lists:
`"" → [""]`, `"1..2" → ["1","","2"]`. -/
def splitDot : List Char → List (List Char)
  | [] => [[]]
  | c :: t =>
    let r := splitDot t
    if c = '.' then [] :: r
    else
      match r with
      | [] => [[c]]
      | h :: hs => (c :: h) :: hs

theorem splitDot_ne_nil (cs : List Char) : splitDot cs ≠ [] := by
  induction cs with
  | nil => simp [splitDot]
  | cons c t ih =>
    simp only [splitDot]
    split
    · simp
    · match h : splitDot t with
      | [] => exact absurd h ih
      | a :: as => simp

/-- Decimal value of a digit list (most significant first). -/
def natOfDigits (cs : List Char) : Nat :=
  cs.foldl (fun a c => a * 10 + (c.toNat - '0'.toNat)) 0

/-- First occurrence index of `needle` in `hay` (code-point positions), or
`none`; the JavaScript `String.prototype.indexOf` modulo the `-1` encoding. -/
def firstOcc : List Char → List Char → Option Nat
  | [], needle => if needle = [] then some 0 else none
  | hay@(_ :: t), needle =>
    if needle.isPrefixOf hay then some 0
    else (firstOcc t needle).map (· + 1)

/-- JavaScript `hay.indexOf(needle)`: first index or `-1`. -/
def jsIndexOf (hay needle : String) : Int :=
  match firstOcc hay.toList needle.toList with
  | some i => (i : Int)
  | none => -1

/-- JavaScript `s.substr(0, len)`: a negative `len` yields the empty string. -/
def jsSubstr0 (s : String) (len : Int) : String :=
  ⟨s.toList.take len.toNat⟩

/-- JavaScript `x || d` on an optional string (`undefined`, `null` and `""` are
falsy). -/
def jsOrStr (x : Option String) (d : String) : String :=
  match x with
  | some s => if s = "" then d else s
  | none => d

/-! ## JavaScript numbers (`check-libs` version comparator)

The comparator maps version parts through `Number` and then tests
`/^\d+$/` against the resulting value (which JavaScript stringifies).  We model
the number space exactly. -/

/-- A JavaScript number produced by `Number(string)`: NaN, a signed infinity,
or a finite value modelled as an exact rational. -/
inductive JSNum where
  | nan : JSNum
  | inf : Bool → JSNum
  | num : ℚ → JSNum
deriving DecidableEq

/-- Exponent application for string-to-number conversion. -/
def applyExp (q : ℚ) (neg : Bool) (e : Nat) : ℚ :=
  if neg then q / ((10 ^ e : ℕ) : ℚ) else q * ((10 ^ e : ℕ) : ℚ)

/-- The body of an exponent suffix (optional sign, then digits only). -/
def parseExpTail (m : ℚ) (r : List Char) : JSNum :=
  let (neg, r') := match r with
    | '+' :: t => (false, t)
    | '-' :: t => (true, t)
    | t => (false, t)
  if r' ≠ [] ∧ r'.all Char.isDigit then .num (applyExp m neg (natOfDigits r'))
  else .nan

/-- Parse the exponent suffix (`e`/`E`, optional sign, digits) after a decimal
mantissa `m`; anything else is NaN. -/
def parseExpPart (m : ℚ) : List Char → JSNum
  | [] => .num m
  | 'e' :: r => parseExpTail m r
  | 'E' :: r => parseExpTail m r
  | _ => .nan

/-- Parse a decimal literal (`DecimalDigits [. DecimalDigits] [ExponentPart]`
or `. DecimalDigits [ExponentPart]`). -/
def parseDec (cs : List Char) : JSNum :=
  let ip := cs.takeWhile Char.isDigit
  let r1 := cs.dropWhile Char.isDigit
  match r1 with
  | '.' :: r2 =>
    let fp := r2.takeWhile Char.isDigit
    let r3 := r2.dropWhile Char.isDigit
    if ip = [] ∧ fp = [] then .nan
    else parseExpPart ((natOfDigits ip : ℚ) + (natOfDigits fp : ℚ) / ((10 ^ fp.length : ℕ) : ℚ)) r3
  | [] => if ip = [] then .nan else .num (natOfDigits ip)
  | _ => if ip = [] then .nan else parseExpPart (natOfDigits ip) r1

/-- Digit-value test for radix parsing. -/
def isRadixDigit (radix : Nat) (c : Char) : Bool :=
  match radix with
  | 16 => c.isDigit || ('a' ≤ c.toLower && c.toLower ≤ 'f')
  | 8 => '0' ≤ c && c ≤ '7'
  | 2 => c == '0' || c == '1'
  | _ => c.isDigit

/-- Value of a digit list in the given radix. -/
def natOfRadix (radix : Nat) (cs : List Char) : Nat :=
  cs.foldl (fun a c =>
    a * radix + (if c.isDigit then c.toNat - '0'.toNat else c.toLower.toNat - 'a'.toNat + 10)) 0

/-- The characters of `"Infinity"`. -/
def infinityChars : List Char := ['I', 'n', 'f', 'i', 'n', 'i', 't', 'y']

/-- A radix-prefixed literal body (after `0x`/`0o`/`0b`): digits of the radix,
non-empty, else NaN. -/
def radixCase (radix : Nat) (r : List Char) : JSNum :=
  if r ≠ [] ∧ r.all (isRadixDigit radix) then .num (natOfRadix radix r) else .nan

/-- A sign-prefixed literal body: `Infinity` or a decimal literal, negated
for `-`. -/
def signCase (neg : Bool) (r : List Char) : JSNum :=
  if r = infinityChars then .inf neg
  else
    match parseDec r with
    | .num q => .num (if neg then -q else q)
    | x => x

/-- Source `Number(string)` on an already trimmed character list: the empty string
is `0`; `0x`/`0X`, `0o`/`0O`, `0b`/`0B` prefixes take their radix; a sign
prefixes `Infinity` or a decimal literal; otherwise `Infinity` or a decimal
literal.  (A model of the ECMAScript ToNumber grammar, not of repository
code.) -/
def jsNumberTrimmed (cs : List Char) : JSNum :=
  if cs = [] then .num 0
  else if cs.take 2 = ['0', 'x'] ∨ cs.take 2 = ['0', 'X'] then radixCase 16 (cs.drop 2)
  else if cs.take 2 = ['0', 'o'] ∨ cs.take 2 = ['0', 'O'] then radixCase 8 (cs.drop 2)
  else if cs.take 2 = ['0', 'b'] ∨ cs.take 2 = ['0', 'B'] then radixCase 2 (cs.drop 2)
  else if cs.head? = some '+' then signCase false cs.tail
  else if cs.head? = some '-' then signCase true cs.tail
  else if cs = infinityChars then .inf false
  else parseDec cs

/-- JavaScript `Number(string)` (ToNumber on strings): trim whitespace, then
interpret the trimmed literal. -/
def jsNumberL (cs0 : List Char) : JSNum :=
  jsNumberTrimmed (((cs0.dropWhile isSpaceJS).reverse.dropWhile isSpaceJS).reverse)

/-- Source `Number` on a string. -/
def jsNumber (s : String) : JSNum :=
  jsNumberL s.toList

/-- The source's `isValidPart` applied after `map(Number)`: JavaScript
evaluates `/^\d+$/.test(x)` on the stringification of the number `x`, which
matches exactly for finite non-negative integers below `10^21` (larger
integers stringify in exponent notation; negatives, non-integers, NaN and the
infinities never match). -/
def isValidPart : JSNum → Bool
  | .num q => decide (0 ≤ q) && decide (q.den = 1) && decide (q < ((10 ^ 21 : ℕ) : ℚ))
  | _ => false

/-- Equality test on JavaScript numbers (`==` between numbers; NaN compares
unequal to everything). -/
def jsNumEq : JSNum → JSNum → Bool
  | .num a, .num b => a == b
  | .inf a, .inf b => a == b
  | _, _ => false

/-- Greater-than on JavaScript numbers (NaN comparisons are false). -/
def jsNumGt : JSNum → JSNum → Bool
  | .num a, .num b => b < a
  | .inf a, .inf b => !a && b
  | .inf a, .num _ => !a
  | .num _, .inf b => b
  | _, _ => false

/-- The index loop of `compareVersions`: walk `v1`; when `v2` runs out first
return `1`; at the first differing pair return `1`/`-1`; if `v1` runs out,
return `-1` when `v2` still has parts, else `0`. -/
def cmpParts : List JSNum → List JSNum → Int
  | [], [] => 0
  | [], _ :: _ => -1
  | _ :: _, [] => 1
  | a :: as, b :: bs =>
    if jsNumEq a b then cmpParts as bs
    else if jsNumGt a b then 1 else -1

/-- Source `compareVersions(version1, version2)` from the check-libs module.  The
result is `none` for the NaN outcome and `some r` for `r ∈ {-1,0,1}`.

The source guard `typeof version1 !== 'string' || typeof version1 !== 'string'`
tests `version1` twice and never inspects `version2`; for the string inputs of
this embedding it never fires (a non-string second argument makes the source
throw at `version2.split` instead of returning NaN). -/
def compareVersions (version1 version2 : String) : Option Int :=
  let v1 := (splitDot version1.toList).map jsNumberL
  let v2 := (splitDot version2.toList).map jsNumberL
  if v1.all isValidPart && v2.all isValidPart then some (cmpParts v1 v2)
  else none

/-! Specification-side comparator, used as the refinement target of claim C3.
It follows the claim's words: compare dot-separated parts positionally as
integers, return `1` at the first index where the second list has no part,
resolve at the first differing pair, return `-1` when the first list is the
shorter of two part-wise equal prefixes, and `0` on full equality. -/

/-- Modelled from the spec: positional integer comparison of version parts as
described by claim C3. -/
def specCompare : List Nat → List Nat → Int
  | [], [] => 0
  | [], _ :: _ => -1
  | _ :: _, [] => 1
  | a :: as, b :: bs =>
    if a = b then specCompare as bs
    else if a > b then 1 else -1

/-- A well-formed version string: every dot-separated part is non-empty pure
digit text (`^\d+$`). -/
def WellFormedVersion (s : String) : Prop :=
  ∀ p ∈ splitDot s.toList, p ≠ [] ∧ ∀ c ∈ p, c.isDigit

instance (s : String) : Decidable (WellFormedVersion s) := by
  unfold WellFormedVersion; infer_instance

/-- The integer values of the dot-separated parts of a version string. -/
def partVals (s : String) : List Nat :=
  (splitDot s.toList).map natOfDigits

/-! ## A small backtracking regex engine

The library signatures of the check-libs module are JavaScript regular
expressions; each one is transliterated below into an explicit `RE` syntax
tree over this engine.  The engine implements leftmost search with greedy
(resp. lazy) backtracking and numbered capturing groups, i.e. the JavaScript
`RegExp.prototype.exec` semantics for the pattern subset those signatures
use (none of them contains anchors). -/

/-- Regular-expression syntax trees: empty, single-character class, sequence,
alternation, numbered capturing group, greedy star, lazy star, greedy option. -/
inductive RE where
  | eps : RE
  | cls : (Char → Bool) → RE
  | seq : RE → RE → RE
  | alt : RE → RE → RE
  | grp : Nat → RE → RE
  | star : RE → RE
  | lazyStar : RE → RE
  | opt : RE → RE

/-- Captured groups: group index paired with the captured characters (later
entries shadow earlier ones for the same index). -/
def Caps := List (Nat × List Char)

/-- Structural size of a regex, used to bound the backtracking depth. -/
def reSize : RE → Nat
  | .eps => 1
  | .cls _ => 1
  | .seq a b => reSize a + reSize b + 1
  | .alt a b => reSize a + reSize b + 1
  | .grp _ r => reSize r + 1
  | .star r => reSize r + 1
  | .lazyStar r => reSize r + 1
  | .opt r => reSize r + 1

/-- CPS backtracking matcher: match `re` against a prefix of `s`, extending
captures `caps`, and give the remainder to the continuation `k`.  Greedy
operators try the longer parse first, lazy ones the shorter; star bodies that
consume nothing end the repetition (the JavaScript rule).  `fuel` bounds the
call depth and is chosen large enough for every evaluation in this file. -/
def mrun (fuel : Nat) (re : RE) (s : List Char) (caps : Caps)
    (k : List Char → Caps → Option (List Char × Caps)) : Option (List Char × Caps) :=
  match fuel with
  | 0 => none
  | f + 1 =>
    match re with
    | .eps => k s caps
    | .cls p =>
      match s with
      | [] => none
      | c :: rest => if p c then k rest caps else none
    | .seq a b => mrun f a s caps (fun s' caps' => mrun f b s' caps' k)
    | .alt a b => (mrun f a s caps k).orElse (fun _ => mrun f b s caps k)
    | .grp i r =>
      mrun f r s caps (fun s' caps' => k s' ((i, s.take (s.length - s'.length)) :: caps'))
    | .star r =>
      (mrun f r s caps (fun s' caps' =>
        if s'.length < s.length then mrun f (.star r) s' caps' k else none)).orElse
        (fun _ => k s caps)
    | .lazyStar r =>
      (k s caps).orElse (fun _ =>
        mrun f r s caps (fun s' caps' =>
          if s'.length < s.length then mrun f (.lazyStar r) s' caps' k else none))
    | .opt r => (mrun f r s caps k).orElse (fun _ => k s caps)

/-- Match `re` at the start of `s`; on success return the remainder and the
captures. -/
def execAt (re : RE) (s : List Char) : Option (List Char × Caps) :=
  mrun ((reSize re + 2) * (s.length + 2) + 100) re s [] (fun rest caps => some (rest, caps))

/-- Leftmost search (`exec` on a pattern without anchors): try each start
position in order; on success return the matched characters and the captures. -/
def execSearch (re : RE) : List Char → Option (List Char × Caps)
  | [] =>
    match execAt re [] with
    | some (_, caps) => some ([], caps)
    | none => none
  | s@(_ :: t) =>
    match execAt re s with
    | some (rest, caps) => some (s.take (s.length - rest.length), caps)
    | none => execSearch re t

/-- Source `re.exec(s)`: whole match and captures, or `none`. -/
def execRE (re : RE) (s : String) : Option (List Char × Caps) :=
  execSearch re s.toList

/-- Capture group `i` of a match (`undefined` groups are `none`). -/
def mGroup (m : List Char × Caps) (i : Nat) : Option String :=
  ((m.2.find? (fun p => p.1 == i)).map (fun p => String.mk p.2))

/-- Capture group `i`, defaulted to `""` (source sites only read groups the
pattern always populates). -/
def mGroupD (m : List Char × Caps) (i : Nat) : String :=
  (mGroup m i).getD ""

/-- The whole matched text (`match[0]`). -/
def mWhole (m : List Char × Caps) : String :=
  String.mk m.1

/-! Builders mirroring the JavaScript pattern atoms. -/

/-- A literal character. -/
def chrRE (c : Char) : RE := .cls (fun x => x == c)

/-- A literal character under the `i` flag. -/
def ichrRE (c : Char) : RE := .cls (fun x => x.toLower == c.toLower)

/-- Source `.` — any character except line terminators. -/
def anyRE : RE := .cls (fun c => !isLineTerm c)

/-- Source `\d`. -/
def digitRE : RE := .cls Char.isDigit

/-- Source `\D`. -/
def nondigitRE : RE := .cls (fun c => !c.isDigit)

/-- Source `\s`. -/
def spaceRE : RE := .cls isSpaceJS

/-- Sequence of a list of atoms. -/
def seqsRE (l : List RE) : RE := l.foldr .seq .eps

/-- A literal string. -/
def litRE (s : String) : RE := seqsRE (s.toList.map chrRE)

/-- A literal string under the `i` flag. -/
def ilitRE (s : String) : RE := seqsRE (s.toList.map ichrRE)

/-- Source `r+`. -/
def plusRE (r : RE) : RE := .seq r (.star r)

/-- Source `r{0,n}` (greedy). -/
def repMaxRE : Nat → RE → RE
  | 0, _ => .eps
  | n + 1, r => .opt (.seq r (repMaxRE n r))

/-- Source `\d+\.\d+\.\d+`. -/
def dotted3RE : RE :=
  seqsRE [plusRE digitRE, chrRE '.', plusRE digitRE, chrRE '.', plusRE digitRE]

/-- Source `\d+\.\d+`. -/
def dotted2RE : RE :=
  seqsRE [plusRE digitRE, chrRE '.', plusRE digitRE]

/-- Source `\d+.\d+.\d+` (unescaped dots: any non-terminator character). -/
def loose3RE : RE :=
  seqsRE [plusRE digitRE, anyRE, plusRE digitRE, anyRE, plusRE digitRE]

/-! ## check-libs: data model and `checkVersion` -/

/-- The `minVersion` pair of a library descriptor. -/
structure MinVersion where
  major : String
  minor : String
deriving DecidableEq

/-- The `vinfo` record produced by `checkVersion`, with the `url` and
`lineNumber` fields that `checkScript` later adds to a violating result. -/
structure VInfo where
  name : Option String
  needsUpdate : Bool
  minVersion : String
  version : String
  bannedVersion : Option String := none
  url : Option String := none
  lineNumber : Option Nat := none
deriving DecidableEq

/-- The data fields of a library descriptor.  A JavaScript object may lack any
of them, so every field is optional; `matchRe` is the `match` field of
external configuration entries (renamed: `match` is a Lean keyword). -/
structure LibData where
  name : Option String := none
  minVersion : Option MinVersion := none
  patchOptional : Option Bool := none
  bannedVersions : Option (List String) := none
  skip : Option Bool := none
  matchRe : Option String := none

/-- An extraction rule: the source's check functions receive the library as
`this` and only read its data fields. -/
def CheckFn := LibData → String → Option VInfo

/-- A library descriptor: data fields plus the `check` function. -/
structure Library extends LibData where
  check : Option CheckFn := none

/-- Source `library.minVersion.major + library.minVersion.minor`.  The source throws
if `minVersion` is absent; the default used here is never exercised by a
theorem (every built-in descriptor and every theorem's descriptor carries a
`minVersion`). -/
def minVersionString (library : LibData) : String :=
  match library.minVersion with
  | some m => m.major ++ m.minor
  | none => ""

/-- Hand compilation of the anchored `/^(\d+\.\d+)(.*)$/` of `checkVersion`:
a maximal digit run, a literal dot, a second maximal digit run, then any
suffix free of line terminators (`.*$` without the `m` flag). -/
def patchParts (s : String) : Option (String × String) :=
  let cs := s.toList
  let d1 := cs.takeWhile Char.isDigit
  let r1 := cs.dropWhile Char.isDigit
  if d1 = [] then none
  else
    match r1 with
    | '.' :: r2 =>
      let d2 := r2.takeWhile Char.isDigit
      let rest := r2.dropWhile Char.isDigit
      if d2 = [] then none
      else if rest.all (fun c => !isLineTerm c) then
        some (String.mk (d1 ++ '.' :: d2), String.mk rest)
      else none
    | _ => none

/-- Hand compilation of the anchored test `/^\.\d+/`. -/
def startsDotDigit (s : String) : Bool :=
  match s.toList with
  | '.' :: c :: _ => c.isDigit
  | _ => false

/-- The patch-optional normalization step of `checkVersion`: when
`patchOptional` is truthy and the version matches `^(\d+\.\d+)(.*)$` with a
suffix not beginning `.<digit>`, insert a `.0` patch component. -/
def normalizeVersion (library : LibData) (version0 : String) : String :=
  if library.patchOptional = some true then
    match patchParts version0 with
    | some (p1, p2) => if startsDotDigit p2 then version0 else p1 ++ ".0" ++ p2
    | none => version0
  else version0

/-- Source `checkVersion(library, version)` from the check-libs module: optionally
synthesize the implied `.0` patch component, decide `needsUpdate` by
comparison against `minVersion.major + minVersion.minor`, then force
`needsUpdate` and record `bannedVersion` when the (possibly normalized)
version occurs in `bannedVersions`.  The reported `version` field keeps the
argument as given. -/
def checkVersion (library : LibData) (version0 : String) : VInfo :=
  let minV := minVersionString library
  let version := normalizeVersion library version0
  let needsUpdate0 := compareVersions version minV == some (-1)
  match library.bannedVersions with
  | some bv =>
    if version ∈ bv then
      { name := library.name, needsUpdate := true, minVersion := minV, version := version0,
        bannedVersion := some version }
    else
      { name := library.name, needsUpdate := needsUpdate0, minVersion := minV, version := version0 }
  | none =>
    { name := library.name, needsUpdate := needsUpdate0, minVersion := minV, version := version0 }

/-! ### A parser for configuration regexes

`defaultCheck` compiles an externally supplied pattern string at run time
(`new RegExp(config.match, "m")`).  The parser below covers the pattern
subset such configuration entries use (literals, escapes, classes, groups,
alternation and the standard quantifiers); anchors and patterns outside the
subset yield `none`, modelled as never matching.  No theorem evaluates it:
the merge theorems only compare extraction rules against `defaultCheck`. -/

/-- One escape atom (`\d`, `\s`, `\w`, their complements, control escapes, or
an escaped literal). -/
def escPred (c : Char) : Char → Bool :=
  match c with
  | 'd' => Char.isDigit
  | 'D' => fun x => !x.isDigit
  | 's' => isSpaceJS
  | 'S' => fun x => !isSpaceJS x
  | 'w' => fun x => x.isAlphanum || x == '_'
  | 'W' => fun x => !(x.isAlphanum || x == '_')
  | 'n' => fun x => x == '\n'
  | 'r' => fun x => x == '\r'
  | 't' => fun x => x == '\t'
  | _ => fun x => x == c

/-- Items of a character class, up to the closing bracket. -/
def parseClassItems : Nat → List Char → Option (List (Char → Bool) × List Char)
  | 0, _ => none
  | _ + 1, ']' :: rest => some ([], rest)
  | f + 1, '\\' :: c :: rest =>
    match parseClassItems f rest with
    | some (ps, rest') => some (escPred c :: ps, rest')
    | none => none
  | f + 1, a :: '-' :: b :: rest =>
    if b = ']' then
      match parseClassItems f (b :: rest) with
      | some (ps, rest') => some ((fun x => x == a) :: (fun x => x == '-') :: ps, rest')
      | none => none
    else
      match parseClassItems f rest with
      | some (ps, rest') => some ((fun x => a ≤ x && x ≤ b) :: ps, rest')
      | none => none
  | f + 1, c :: rest =>
    match parseClassItems f rest with
    | some (ps, rest') => some ((fun x => x == c) :: ps, rest')
    | none => none
  | _ + 1, [] => none

/-- A character class `[...]`, with optional leading `^`. -/
def parseClass (cs : List Char) : Option ((Char → Bool) × List Char) :=
  let (neg, cs') := match cs with
    | '^' :: t => (true, t)
    | t => (false, t)
  match parseClassItems (cs'.length + 1) cs' with
  | some (ps, rest) =>
    some ((fun x => if neg then !(ps.any (fun p => p x)) else ps.any (fun p => p x)), rest)
  | none => none

/-- A postfix quantifier (greedy and lazy `*`, `+`, `?`). -/
def applyPostfix (a : RE) : List Char → RE × List Char
  | '*' :: '?' :: t => (.lazyStar a, t)
  | '*' :: t => (.star a, t)
  | '+' :: '?' :: t => (.seq a (.lazyStar a), t)
  | '+' :: t => (plusRE a, t)
  | '?' :: '?' :: t => (.alt .eps a, t)
  | '?' :: t => (.opt a, t)
  | t => (a, t)

mutual

/-- Alternation level of the pattern grammar (group counter threaded). -/
def parseAltRE : Nat → Nat → List Char → Option (RE × Nat × List Char)
  | 0, _, _ => none
  | f + 1, gi, cs =>
    match parseSeqRE f gi cs with
    | none => none
    | some (r, gi', rest) =>
      match rest with
      | '|' :: t =>
        match parseAltRE f gi' t with
        | some (r2, gi'', rest') => some (.alt r r2, gi'', rest')
        | none => none
      | _ => some (r, gi', rest)

/-- Concatenation level. -/
def parseSeqRE : Nat → Nat → List Char → Option (RE × Nat × List Char)
  | 0, _, _ => none
  | f + 1, gi, cs =>
    match cs with
    | [] => some (.eps, gi, [])
    | ')' :: _ => some (.eps, gi, cs)
    | '|' :: _ => some (.eps, gi, cs)
    | _ =>
      match parseAtomRE f gi cs with
      | none => none
      | some (a, gi1, rest) =>
        let (a', rest') := applyPostfix a rest
        match parseSeqRE f gi1 rest' with
        | none => none
        | some (b, gi2, rest2) => some (.seq a' b, gi2, rest2)

/-- Atom level: groups, classes, escapes, `.`, literal characters. -/
def parseAtomRE : Nat → Nat → List Char → Option (RE × Nat × List Char)
  | 0, _, _ => none
  | f + 1, gi, cs =>
    match cs with
    | '(' :: '?' :: ':' :: t =>
      match parseAltRE f gi t with
      | some (r, gi', ')' :: t') => some (r, gi', t')
      | _ => none
    | '(' :: t =>
      match parseAltRE f (gi + 1) t with
      | some (r, gi', ')' :: t') => some (.grp (gi + 1) r, gi', t')
      | _ => none
    | '[' :: t =>
      match parseClass t with
      | some (p, rest) => some (.cls p, gi, rest)
      | none => none
    | '\\' :: c :: t => some (.cls (escPred c), gi, t)
    | '.' :: t => some (anyRE, gi, t)
    | '^' :: _ => none
    | '$' :: _ => none
    | c :: t => some (chrRE c, gi, t)
    | [] => none

end

/-- Compile a configuration pattern string, or `none` outside the supported
subset. -/
def parseRegex (pat : String) : Option RE :=
  match parseAltRE (pat.length * 2 + 10) 0 pat.toList with
  | some (r, _, []) => some r
  | _ => none

/-- Source `defaultCheck` from the check-libs module: the generic extraction rule
attached to appended configuration entries.  It applies the entry's single
pattern (`this.match`, compiled with the `m` flag, which is inert for the
anchor-free subset) to the script text and feeds the first captured group into
`checkVersion`. -/
def defaultCheck : CheckFn := fun lib scriptText =>
  match parseRegex (lib.matchRe.getD "") with
  | some re =>
    match execRE re scriptText with
    | some m => some (checkVersion lib (mGroupD m 1))
    | none => none
  | none => none

/-! ## check-libs: the built-in signature registry

Each regex literal of the source's `libraries` array is transliterated into an
`RE` tree (escaped dots are literal dots, unescaped dots are `anyRE`). -/

/-- Pattern `/Prototype JavaScript framework, version (\d+\.\d+\.\d+)/m` -/
def protoRe : RE :=
  .seq (litRE "Prototype JavaScript framework, version ") (.grp 1 dotted3RE)

/-- Pattern `/\.version\s*=\s*\{\s*major:\s*(\d+)\D+(\d+)\D+(\d+)/m` -/
def dojoRe1 : RE :=
  seqsRE [chrRE '.', litRE "version", .star spaceRE, chrRE '=', .star spaceRE, chrRE '\x7b',
    .star spaceRE, litRE "major:", .star spaceRE, .grp 1 (plusRE digitRE), plusRE nondigitRE,
    .grp 2 (plusRE digitRE), plusRE nondigitRE, .grp 3 (plusRE digitRE)]

/-- Pattern `/\s*major:\s*(\d+),\s*minor:\s*(\d+),\s*patch:\s*(\d+),/mi` -/
def dojoRe2 : RE :=
  seqsRE [.star spaceRE, ilitRE "major:", .star spaceRE, .grp 1 (plusRE digitRE), chrRE ',',
    .star spaceRE, ilitRE "minor:", .star spaceRE, .grp 2 (plusRE digitRE), chrRE ',',
    .star spaceRE, ilitRE "patch:", .star spaceRE, .grp 3 (plusRE digitRE), chrRE ',']

/-- Pattern `/this.MooTools\s*=\s*\{version:\s*'(\d+\.\d+\.\d+)/m` -/
def mootoolsRe : RE :=
  seqsRE [litRE "this", anyRE, litRE "MooTools", .star spaceRE, chrRE '=', .star spaceRE,
    chrRE '\x7b', litRE "version:", .star spaceRE, chrRE '\x27', .grp 1 dotted3RE]

/-- Pattern `/\*\s+SWFObject v(\d+\.\d+)/m` -/
def swfRe : RE :=
  seqsRE [chrRE '*', plusRE spaceRE, litRE "SWFObject v", .grp 1 dotted2RE]

/-- Pattern `/Form Plugin\s+\*\s+version: (\d+\.\d+)/m` -/
def jqFormRe : RE :=
  seqsRE [litRE "Form Plugin", plusRE spaceRE, chrRE '*', plusRE spaceRE, litRE "version: ",
    .grp 1 dotted2RE]

/-- Pattern `/\*\s*Modernizr\s+(\d+\.\d+\.\d+)/m` -/
def modernizrRe : RE :=
  seqsRE [chrRE '*', .star spaceRE, litRE "Modernizr", plusRE spaceRE, .grp 1 dotted3RE]

/-- Pattern `/\*\s*jQuery Cookie Plugin v(\d+\.\d+\.\d+)/m` -/
def jqCookieRe : RE :=
  seqsRE [chrRE '*', .star spaceRE, litRE "jQuery Cookie Plugin v", .grp 1 dotted3RE]

/-- Pattern `/\*\s*hoverIntent v(\d+\.\d+\.\d+)/m` -/
def hoverRe1 : RE :=
  seqsRE [chrRE '*', .star spaceRE, litRE "hoverIntent v", .grp 1 dotted3RE]

/-- Pattern `/\*\s*hoverIntent r(\d)/m` -/
def hoverRe2 : RE :=
  seqsRE [chrRE '*', .star spaceRE, litRE "hoverIntent r", .grp 1 digitRE]

/-- Pattern `/\*\s*jQuery Easing v(\d+\.\d+)\s*/m` -/
def jqEasingRe : RE :=
  seqsRE [chrRE '*', .star spaceRE, litRE "jQuery Easing v", .grp 1 dotted2RE, .star spaceRE]

/-- Pattern `/exports._(?:.*)?.VERSION="(\d+.\d+.\d+)"/m` -/
def underscoreRe : RE :=
  seqsRE [litRE "exports", anyRE, chrRE '_', .opt (.star anyRE), anyRE, litRE "VERSION=",
    chrRE '"', .grp 1 loose3RE, chrRE '"']

/-- Pattern `/.VERSION\s*=\s*['|"](\d+.\d+.\d+)['|"]/m` -/
def hammerRe : RE :=
  seqsRE [anyRE, litRE "VERSION", .star spaceRE, chrRE '=', .star spaceRE,
    .cls (fun c => c == '\x27' || c == '|' || c == '"'), .grp 1 loose3RE,
    .cls (fun c => c == '\x27' || c == '|' || c == '"')]

/-- Pattern `/jQuery Superfish Menu Plugin - v(\d+.\d+.\d+)"/m` -/
def superfishRe : RE :=
  seqsRE [litRE "jQuery Superfish Menu Plugin - v", .grp 1 loose3RE, chrRE '"']

/-- Pattern `/.mousewheel={version:"(\d+.\d+.\d+)/` -/
def mousewheelRe : RE :=
  seqsRE [anyRE, litRE "mousewheel=\x7bversion:", chrRE '"', .grp 1 loose3RE]

/-- Pattern `/.mobile,{version:"(\d+.\d+.\d+)/` -/
def jqMobileRe : RE :=
  seqsRE [anyRE, litRE "mobile,\x7bversion:", chrRE '"', .grp 1 loose3RE]

/-- Pattern `/\.ui,[\s\r\n]*\{[\s\r\n]*version:\s*"(\d+.\d+.\d+)/m` -/
def jqUIRe : RE :=
  seqsRE [chrRE '.', litRE "ui,", .star (.cls (fun c => isSpaceJS c || c == '\r' || c == '\n')),
    chrRE '\x7b', .star (.cls (fun c => isSpaceJS c || c == '\r' || c == '\n')),
    litRE "version:", .star spaceRE, chrRE '"', .grp 1 loose3RE]

/-- Pattern `/(?:jQuery\s*v)(\d+.\d+.\d+)\s/g` -/
def jqRe1 : RE :=
  seqsRE [litRE "jQuery", .star spaceRE, chrRE 'v', .grp 1 loose3RE, spaceRE]

/-- The matched version text re-read as a pattern (`new RegExp(...)`): its
dots are pattern dots; the remaining characters of a `jqRe1` match are
literals (no other metacharacter can occur in realistic matches). -/
def jqLooseLit (s : String) : RE :=
  seqsRE (s.toList.map (fun c => if c = '.' then anyRE else chrRE c))

/-- Source `new RegExp('(?::\s*)' + version[0], 'g')` -/
def jqPluginRe (ver0 : String) : RE :=
  seqsRE [chrRE ':', .star spaceRE, jqLooseLit ver0]

/-- Pattern `/jquery:\s*"([^"]+)/` -/
def jqRe2 : RE :=
  seqsRE [litRE "jquery:", .star spaceRE, chrRE '"', .grp 1 (plusRE (.cls (fun c => !(c == '"'))))]

/-- Pattern `/(?:jquery[,\)].{0,200}=")(\d+\.\d+)(\..*?)"/gi` -/
def jqRe3 : RE :=
  seqsRE [ilitRE "jquery", .cls (fun c => c == ',' || c == ')'), repMaxRE 200 anyRE,
    chrRE '=', chrRE '"', .grp 1 dotted2RE, .grp 2 (.seq (chrRE '.') (.lazyStar anyRE)),
    chrRE '"']

/-- The Prototype extraction rule. -/
def protoCheck : CheckFn := fun lib scriptText =>
  match execRE protoRe scriptText with
  | some m => some (checkVersion lib (mGroupD m 1))
  | none => none

/-- The Dojo extraction rule: a cheap substring guard, then two patterns whose
three captures are joined with dots. -/
def dojoCheck : CheckFn := fun lib scriptText =>
  if jsIndexOf scriptText "dojo" == -1 then none
  else
    match execRE dojoRe1 scriptText with
    | some m =>
      some (checkVersion lib (mGroupD m 1 ++ "." ++ mGroupD m 2 ++ "." ++ mGroupD m 3))
    | none =>
      match execRE dojoRe2 scriptText with
      | some m =>
        some (checkVersion lib (mGroupD m 1 ++ "." ++ mGroupD m 2 ++ "." ++ mGroupD m 3))
      | none => none

/-- The Mootools extraction rule. -/
def mootoolsCheck : CheckFn := fun lib scriptText =>
  match execRE mootoolsRe scriptText with
  | some m => some (checkVersion lib (mGroupD m 1))
  | none => none

/-- The SWFObject extraction rule. -/
def swfCheck : CheckFn := fun lib scriptText =>
  match execRE swfRe scriptText with
  | some m => some (checkVersion lib (mGroupD m 1))
  | none => none

/-- The jQuery Form Plugin extraction rule. -/
def jqFormCheck : CheckFn := fun lib scriptText =>
  match execRE jqFormRe scriptText with
  | some m => some (checkVersion lib (mGroupD m 1))
  | none => none

/-- The Modernizr extraction rule. -/
def modernizrCheck : CheckFn := fun lib scriptText =>
  match execRE modernizrRe scriptText with
  | some m => some (checkVersion lib (mGroupD m 1))
  | none => none

/-- The jQuery cookie extraction rule. -/
def jqCookieCheck : CheckFn := fun lib scriptText =>
  match execRE jqCookieRe scriptText with
  | some m => some (checkVersion lib (mGroupD m 1))
  | none => none

/-- The hoverIntent extraction rule: dotted version, else a revision digit
mapped to `1.<r>.0`. -/
def hoverCheck : CheckFn := fun lib scriptText =>
  match execRE hoverRe1 scriptText with
  | some m => some (checkVersion lib (mGroupD m 1))
  | none =>
    match execRE hoverRe2 scriptText with
    | some m => some (checkVersion lib ("1." ++ mGroupD m 1 ++ ".0"))
    | none => none

/-- The jQuery Easing extraction rule. -/
def jqEasingCheck : CheckFn := fun lib scriptText =>
  match execRE jqEasingRe scriptText with
  | some m => some (checkVersion lib (mGroupD m 1))
  | none => none

/-- The underscore extraction rule. -/
def underscoreCheck : CheckFn := fun lib scriptText =>
  match execRE underscoreRe scriptText with
  | some m => some (checkVersion lib (mGroupD m 1))
  | none => none

/-- The hammer js extraction rule: substring guard, then the version pattern. -/
def hammerCheck : CheckFn := fun lib scriptText =>
  if !(jsIndexOf scriptText "hammer.input" == -1) then
    match execRE hammerRe scriptText with
    | some m => some (checkVersion lib (mGroupD m 1))
    | none => none
  else none

/-- The jQuery Superfish extraction rule. -/
def superfishCheck : CheckFn := fun lib scriptText =>
  match execRE superfishRe scriptText with
  | some m => some (checkVersion lib (mGroupD m 1))
  | none => none

/-- The jQuery mousewheel extraction rule. -/
def mousewheelCheck : CheckFn := fun lib scriptText =>
  match execRE mousewheelRe scriptText with
  | some m => some (checkVersion lib (mGroupD m 1))
  | none => none

/-- The jQuery mobile extraction rule. -/
def jqMobileCheck : CheckFn := fun lib scriptText =>
  match execRE jqMobileRe scriptText with
  | some m => some (checkVersion lib (mGroupD m 1))
  | none => none

/-- The jQuery UI extraction rule. -/
def jqUICheck : CheckFn := fun lib scriptText =>
  match execRE jqUIRe scriptText with
  | some m => some (checkVersion lib (mGroupD m 1))
  | none => none

/-- The fallback patterns of the jQuery rule (`jquery: "<v>"` key, then the
minified `jquery…="<major>.<minor><rest>"` shape). -/
def jqueryCheckTail (lib : LibData) (scriptText : String) : Option VInfo :=
  match execRE jqRe2 scriptText with
  | some m => some (checkVersion lib (mGroupD m 1))
  | none =>
    match execRE jqRe3 scriptText with
    | some m => some (checkVersion lib (mGroupD m 1 ++ jsOrStr (mGroup m 2) ""))
    | none => none

/-- The jQuery extraction rule: header pattern, rejected when the same text
occurs after a colon (a plugin's "Requires: jQuery vX" note), then the
fallback patterns. -/
def jqueryCheck : CheckFn := fun lib scriptText =>
  match execRE jqRe1 scriptText with
  | some m =>
    if (execRE (jqPluginRe (mWhole m)) scriptText).isNone then
      some (checkVersion lib (mGroupD m 1))
    else jqueryCheckTail lib scriptText
  | none => jqueryCheckTail lib scriptText

/-- The sixteen built-in descriptors, in source order. -/
def prototypeLibrary : Library :=
  { name := some "Prototype", minVersion := some ⟨"1.6.", "1"⟩, check := some protoCheck }

/-- Dojo descriptor. -/
def dojoLibrary : Library :=
  { name := some "Dojo", minVersion := some ⟨"1.5.", "3"⟩, check := some dojoCheck }

/-- Mootools descriptor. -/
def mootoolsLibrary : Library :=
  { name := some "Mootools", minVersion := some ⟨"1.2.", "6"⟩, check := some mootoolsCheck }

/-- SWFObject descriptor. -/
def swfobjectLibrary : Library :=
  { name := some "SWFObject", minVersion := some ⟨"2.", "1"⟩, check := some swfCheck }

/-- jQuery Form Plugin descriptor. -/
def jqueryFormLibrary : Library :=
  { name := some "jQuery Form Plugin", minVersion := some ⟨"3.", "19"⟩, check := some jqFormCheck }

/-- Modernizr descriptor. -/
def modernizrLibrary : Library :=
  { name := some "Modernizr", minVersion := some ⟨"1.1.", ""⟩, check := some modernizrCheck }

/-- jQuery cookie descriptor. -/
def jqueryCookieLibrary : Library :=
  { name := some "jQuery cookie", minVersion := some ⟨"1.3.", "1"⟩,
    patchOptional := some false, check := some jqCookieCheck }

/-- hoverIntent descriptor. -/
def hoverIntentLibrary : Library :=
  { name := some "hoverIntent", minVersion := some ⟨"1.8.", "0"⟩,
    patchOptional := some false, check := some hoverCheck }

/-- jQuery Easing descriptor. -/
def jqueryEasingLibrary : Library :=
  { name := some "jQuery Easing", minVersion := some ⟨"1.3.", "0"⟩,
    patchOptional := some true, check := some jqEasingCheck }

/-- underscore descriptor. -/
def underscoreLibrary : Library :=
  { name := some "underscore", minVersion := some ⟨"1.0.", "0"⟩,
    patchOptional := some false, check := some underscoreCheck }

/-- hammer js descriptor. -/
def hammerLibrary : Library :=
  { name := some "hammer js", minVersion := some ⟨"2.0.", "2"⟩,
    patchOptional := some false, check := some hammerCheck }

/-- jQuery Superfish descriptor. -/
def superfishLibrary : Library :=
  { name := some "jQuery Superfish", minVersion := some ⟨"1.7.", "4"⟩,
    patchOptional := some false, check := some superfishCheck }

/-- jQuery mousewheel descriptor. -/
def mousewheelLibrary : Library :=
  { name := some "jQuery mousewheel", minVersion := some ⟨"3.1.", "12"⟩,
    patchOptional := some true, check := some mousewheelCheck }

/-- jQuery mobile descriptor. -/
def jqueryMobileLibrary : Library :=
  { name := some "jQuery mobile", minVersion := some ⟨"1.4.", "3"⟩,
    patchOptional := some true, check := some jqMobileCheck }

/-- jQuery UI descriptor. -/
def jqueryUILibrary : Library :=
  { name := some "jQuery UI", minVersion := some ⟨"1.8.", "24"⟩, check := some jqUICheck }

/-- jQuery descriptor. -/
def jqueryLibrary : Library :=
  { name := some "jQuery", minVersion := some ⟨"1.6.", "4"⟩,
    patchOptional := some true, check := some jqueryCheck }

/-- The source's `libraries` array, also saved as `original_libraries`.  The
module additionally merges a `check-libs.json` at load time when that file
exists; it is absent from the repository, so the active registry starts equal
to this list. -/
def original_libraries : List Library :=
  [prototypeLibrary, dojoLibrary, mootoolsLibrary, swfobjectLibrary, jqueryFormLibrary,
   modernizrLibrary, jqueryCookieLibrary, hoverIntentLibrary, jqueryEasingLibrary,
   underscoreLibrary, hammerLibrary, superfishLibrary, mousewheelLibrary,
   jqueryMobileLibrary, jqueryUILibrary, jqueryLibrary]

/-! ## check-libs: `checkScript`, `check` and `merge` -/

/-- A script resource of a website: its source URL (`"embed"` is the inline
sentinel) and its text. -/
structure Script where
  jsUrl : String
  content : Option String
deriving DecidableEq

/-- The website record the analyzers receive: resolved URL (`url.href`), the
already-fetched primary markup, and the ordered script list. -/
structure Website where
  url : String
  content : String
  js : List Script
deriving DecidableEq

instance : Inhabited Library := ⟨{}⟩

/-- Invoke a registry entry's extraction rule (`lib.check.call(lib, text)`).
Every registry entry reachable in the source carries a `check` (built-ins have
their own, appended overrides receive `defaultCheck`); an absent one would
make the source throw and is modelled as no match, a case no theorem
exercises. -/
def runLibCheck (lib : Library) (text : String) : Option VInfo :=
  match lib.check with
  | some f => f lib.toLibData text
  | none => none

/-- The descriptor loop of `checkScript`: walk the registry in order, skip
entries flagged `skip`, skip everything for the inline sentinel, and return
the first extraction result with `needsUpdate`. -/
def scanLibs (libs : List Library) (js : Script) : Option VInfo :=
  match libs with
  | [] => none
  | lib :: rest =>
    if lib.skip = some true then scanLibs rest js
    else if js.jsUrl ≠ "embed" then
      match runLibCheck lib (jsOrStr js.content "") with
      | some result => if result.needsUpdate then some result else scanLibs rest js
      | none => scanLibs rest js
    else scanLibs rest js

/-- Per-script status: `passed` plus the violating descriptor (`data`), which
the source leaves `null` when the script passes. -/
structure ScriptStatus where
  passed : Bool
  data : Option VInfo
deriving DecidableEq

/-- Source `checkScript(js, website)`: first violating descriptor for this script,
annotated with the script URL and the 1-based line number of the URL's first
occurrence in the page markup (`indexOf` then `substr(0, pos).split('\n')`). -/
def checkScript (libs : List Library) (js : Script) (website : Website) : ScriptStatus :=
  match scanLibs libs js with
  | some result =>
    let pos := jsIndexOf website.content js.jsUrl
    let lineNumber := (jsSubstr0 website.content pos).toList.count '\n' + 1
    { passed := false,
      data := some { result with url := some js.jsUrl, lineNumber := some lineNumber } }
  | none => { passed := true, data := none }

/-- The analyzer's result record (`testName: "jslibs"`). -/
structure LibsTest where
  testName : String
  url : String
  passed : Bool
  data : List VInfo
deriving DecidableEq

/-- Source `check(website)` of the check-libs module (named after its `testName`
here because both analyzer modules export a `check`).  The loop body mirrors
the source: every script is examined, and each failing script's descriptor is
pushed onto `data` (`checkScript` sets `data` exactly when it fails, so the
`toList` push appends that one descriptor). -/
def jslibsStep (libs : List Library) (website : Website) (test : LibsTest) (js : Script) :
    LibsTest :=
  let result := checkScript libs js website
  if !result.passed then
    { test with passed := false, data := test.data ++ result.data.toList }
  else test

/-- The loop of `check`, folded over the script list from the initial record. -/
def jslibsCheck (libs : List Library) (website : Website) : LibsTest :=
  website.js.foldl (jslibsStep libs website)
    { testName := "jslibs", url := website.url, passed := true, data := [] }

/-- JavaScript truthiness of an optional string field. -/
def jsTruthyStr (x : Option String) : Bool :=
  match x with
  | some str => str ≠ ""
  | none => false

/-- Field-by-field overlay (`for (var n in config) target[n] = config[n]`):
every field present on the override wins, absent fields keep the target's
value. -/
def overlayLibrary (target ov : Library) : Library :=
  { name := ov.name <|> target.name,
    minVersion := ov.minVersion <|> target.minVersion,
    patchOptional := ov.patchOptional <|> target.patchOptional,
    bannedVersions := ov.bannedVersions <|> target.bannedVersions,
    skip := ov.skip <|> target.skip,
    matchRe := ov.matchRe <|> target.matchRe,
    check := ov.check <|> target.check }

/-- The `name` of a descriptor when it is truthy (`if (library.name)` /
`if (!config.name)` in the source): `undefined`, `null` and `""` give
`none`. -/
def truthyName (l : Library) : Option String :=
  match l.name with
  | some str => if str = "" then none else some str
  | none => none

/-- Index lookup in the name map (`libmap`): first binding wins (bindings are
kept most-recent-first). -/
def lookupIdx : List (String × Nat) → String → Option Nat
  | [], _ => none
  | p :: rest, k => if p.1 = k then some p.2 else lookupIdx rest k

/-- The name map after the copy loop of `mergeConfig`, for entries starting
at index `i`: one binding per truthy-named entry, with later entries'
bindings listed first so that they shadow earlier ones — the source's map
overwrite. -/
def buildLibmapFrom (i : Nat) : List Library → List (String × Nat)
  | [] => []
  | l :: rest =>
    buildLibmapFrom (i + 1) rest ++
      (match truthyName l with
       | some str => [(str, i)]
       | none => [])

/-- The name map over a whole copied registry. -/
def buildLibmap (libs : List Library) : List (String × Nat) :=
  buildLibmapFrom 0 libs

/-- One step of the override loop: overrides without a truthy name are
skipped; a name bound in the map overlays the entry at the bound position
(the source mutates the shared object); an unbound name appends the override
with the generic `defaultCheck` rule and binds its name at the new index. -/
def mergeStep (st : List Library × List (String × Nat)) (config : Library) :
    List Library × List (String × Nat) :=
  match truthyName config with
  | none => st
  | some nm =>
    match lookupIdx st.2 nm with
    | some i => (st.1.set i (overlayLibrary (st.1.getD i default) config), st.2)
    | none => (st.1 ++ [{ config with check := some defaultCheck }], (nm, st.1.length) :: st.2)

/-- Source `mergeConfig(libraries, libconfig)` from the check-libs module: copy the
defaults (value semantics make the source's shallow object copies implicit),
index the truthy-named copies, then run the override loop. -/
def mergeConfig (libraries libconfig : List Library) : List Library :=
  (libconfig.foldl mergeStep (libraries, buildLibmap libraries)).1

/-- The module-level mutable registry (`var libraries`). -/
structure ModuleState where
  libraries : List Library

/-- The registry at module load (no `check-libs.json` is present in the
repository, so no load-time merge happens). -/
def initState : ModuleState := { libraries := original_libraries }

/-- The exported `merge`: a truthy configuration re-merges against the saved
`original_libraries` (never against the current registry); a missing/falsy
argument restores `original_libraries` itself.  Returns the new state and the
returned list. -/
def merge (config : Option (List Library)) (_s : ModuleState) : ModuleState × List Library :=
  match config with
  | some cfg =>
    let ls := mergeConfig original_libraries cfg
    ({ libraries := ls }, ls)
  | none => ({ libraries := original_libraries }, original_libraries)

/-! ## check-same-markup: decompression, counting, comparison, check

External collaborators (cheerio's HTML parsing and CSS selection, zlib, text
decoding and the HTTP transport) are parameters of the embedding: a loaded
document is abstracted as its visible-element count per selector, and fetch
outcomes are inputs. -/

/-- A parsed document as the markup analyzer observes it: for each selector,
the number of matching elements whose `display` is not `"none"` and whose
`visibility` is not `"hidden"` (the cheerio load with case-folded names and
normalized whitespace, composed with the visibility filter). -/
def CDoc := String → Nat

/-- Source `countElements($, elementName)`: the filtered match count of the loaded
document. -/
def countElements (doc : CDoc) (elementName : String) : Nat :=
  doc elementName

/-- Raw response bytes (a `Buffer`). -/
def Bytes := List Nat
deriving instance DecidableEq for Bytes

/-- A decoded body: text plus the compression label the source attaches. -/
structure DecodedBody where
  body : String
  compression : String
deriving DecidableEq

/-- Source `decompress(body, type)`: gzip and raw deflate are inflated by the zlib
collaborators (`gunzip`/`inflateRaw`, modelled on the nullable buffer exactly
as the callbacks receive it) and decoded; any other declared encoding rejects
with the unknown-encoding message. -/
def decompress (gunzip inflateRaw : Option Bytes → Except String Bytes)
    (decode : Bytes → String) (body : Option Bytes) (type' : String) :
    Except String DecodedBody :=
  if type' = "gzip" then
    match gunzip body with
    | .ok d => .ok { body := decode d, compression := "gzip" }
    | .error e => .error ("Error found: can't gunzip content " ++ e)
  else if type' = "deflate" then
    match inflateRaw body with
    | .ok d => .ok { body := decode d, compression := "deflate" }
    | .error e => .error ("Error found: can't deflate content" ++ e)
  else .error ("Unknown content encoding: " ++ type')

/-- The headers the analyzer reads. -/
structure Response where
  contentEncoding : Option String
deriving DecidableEq

/-- Source `getBody(response, body)`: a truthy `content-encoding` header routes to
`decompress`; otherwise a present body — a `Buffer` is truthy even at length
zero — resolves to its decoded text, and only a missing (`null`/`undefined`)
body rejects with the empty-body message. -/
def getBody (gunzip inflateRaw : Option Bytes → Except String Bytes)
    (decode : Bytes → String) (response : Response) (body : Option Bytes) :
    Except String DecodedBody :=
  match response.contentEncoding with
  | some enc =>
    if enc ≠ "" then decompress gunzip inflateRaw decode body enc
    else
      match body with
      | some b => .ok { body := decode b, compression := "none" }
      | none => .error "Error found: Empty body"
  | none =>
    match body with
    | some b => .ok { body := decode b, compression := "none" }
    | none => .error "Error found: Empty body"

/-- One entry of the configured element list (`config.check_markup_elements`):
selector plus optional threshold override. -/
structure ElementConfig where
  name : String
  threshold : Option ℚ
deriving DecidableEq

/-- The configuration surface the markup analyzer reads (owned externally). -/
structure MarkupConfig where
  elements : List ElementConfig
  defaultThreshold : ℚ
  excludeList : List String

/-- Source `isExcluded(siteUrl)`: some configured substring occurs in the URL. -/
def isExcluded (cfg : MarkupConfig) (siteUrl : String) : Bool :=
  cfg.excludeList.any (fun x => jsIndexOf siteUrl x > -1)

/-- Per-element comparison outcome. -/
structure ElementResult where
  element : String
  threshold : ℚ
  edgeCount : Nat
  chromeCount : Nat
  passed : Bool
deriving DecidableEq

/-- Outcome of `compareMarkup`. -/
structure CompareResult where
  passed : Bool
  results : List ElementResult
deriving DecidableEq

/-- The body of the element loop of `compareMarkup`.  The threshold is
`elementConfig.threshold || default` (a configured `0` is falsy and falls
back); the element passes trivially when `max(counts) <= 0` and otherwise
exactly when `min/max >= threshold` (exact rational division standing in for
the double division). -/
def elementStep (load : String → CDoc) (cfg : MarkupConfig) (markup1 markup2 : String)
    (elementConfig : ElementConfig) : ElementResult :=
  let elementThreshold :=
    match elementConfig.threshold with
    | some t => if t ≠ 0 then t else cfg.defaultThreshold
    | none => cfg.defaultThreshold
  let edgeCount := countElements (load markup1) elementConfig.name
  let chromeCount := countElements (load markup2) elementConfig.name
  let maxCount := max edgeCount chromeCount
  { element := elementConfig.name,
    threshold := elementThreshold,
    edgeCount := edgeCount,
    chromeCount := chromeCount,
    passed :=
      if maxCount ≤ 0 then true
      else decide ((min edgeCount chromeCount : ℚ) / (maxCount : ℚ) ≥ elementThreshold) }

/-- The fold combiner of the element loop of `compareMarkup`. -/
def compareStep (load : String → CDoc) (cfg : MarkupConfig) (markup1 markup2 : String)
    (acc : CompareResult) (elementConfig : ElementConfig) : CompareResult :=
  let r := elementStep load cfg markup1 markup2 elementConfig
  { passed := acc.passed && r.passed, results := acc.results ++ [r] }

/-- Source `compareMarkup(markup1, markup2)`: run the element loop in configuration
order, collecting the per-element results and conjoining their verdicts. -/
def compareMarkup (load : String → CDoc) (cfg : MarkupConfig) (markup1 markup2 : String) :
    CompareResult :=
  cfg.elements.foldl (compareStep load cfg markup1 markup2) { passed := true, results := [] }

/-- The website record as the markup analyzer reads it. -/
structure MWebsite where
  url : String
  originalUrl : String
  content : String

/-- The `data` field of a markup result: the per-element list, or an
explanatory string. -/
inductive MarkupData where
  | results : List ElementResult → MarkupData
  | msg : String → MarkupData
deriving DecidableEq

/-- The markup analyzer's result record. -/
structure MarkupTest where
  testName : String
  passed : Bool
  excluded : Option Bool := none
  transient : Option Bool := none
  data : MarkupData
deriving DecidableEq

/-- A fetch outcome as the `request` callback delivers it: a transport error,
or a response with its raw body. -/
def FetchOutcome := Except String (Response × Option Bytes)

/-- Source `check(website)` of the check-same-markup module (named after its
`testName`; both analyzer modules export a `check`).  The two fetch outcomes
are inputs: the source issues both through the same `request` instance (the
secondary, Chrome-identity defaults), the second one only after the first
comparison failed, so the decision structure below is exactly the source's
callback nesting.  A rejected deferred is the `Except.error` case. -/
def markupCheck (load : String → CDoc) (cfg : MarkupConfig)
    (gunzip inflateRaw : Option Bytes → Except String Bytes) (decode : Bytes → String)
    (website : MWebsite) (fetch1 fetch2 : FetchOutcome) : Except String MarkupTest :=
  if isExcluded cfg website.originalUrl then
    .ok { testName := "markup", passed := true, excluded := some true,
          data := .msg "The site was excluded for this test. See the 'check_markup_exclude_list' setting." }
  else
    match fetch1 with
    | .error e => .error e
    | .ok (response, body) =>
      match getBody gunzip inflateRaw decode response body with
      | .error e => .error e
      | .ok r =>
        let edgeMarkup := website.content
        let chromeMarkup := r.body
        let compareResults := compareMarkup load cfg edgeMarkup chromeMarkup
        if compareResults.passed then
          .ok { testName := "markup", passed := compareResults.passed,
                data := .results compareResults.results }
        else
          match fetch2 with
          | .error e => .error e
          | .ok (response2, body2) =>
            match getBody gunzip inflateRaw decode response2 body2 with
            | .error e => .error e
            | .ok r2 =>
              let chromeMarkup2 := r2.body
              let compareResults2 := compareMarkup load cfg chromeMarkup chromeMarkup2
              .ok { testName := "markup", passed := !compareResults2.passed,
                    transient := some (!compareResults2.passed),
                    data :=
                      if compareResults2.passed then .results compareResults.results
                      else .msg "Site candidate for exclude list. The HTML markup for this site presents differences on each request regardless of the user agent." }

/-! ## Supporting lemmas: digit strings through `Number` -/

theorem digit_ne {c d : Char} (h : c.isDigit = true) (hd : d.isDigit = false) : c ≠ d := by
  rintro rfl
  rw [h] at hd
  simp at hd

theorem digit_not_space {c : Char} (h : c.isDigit = true) : isSpaceJS c = false := by
  by_contra hsp
  rw [Bool.not_eq_false] at hsp
  simp only [isSpaceJS, Bool.or_eq_true, beq_iff_eq] at hsp
  rcases hsp with ((((((((rfl | rfl) | rfl) | rfl) | rfl) | rfl) | rfl) | rfl) | rfl) | rfl <;>
    exact absurd h (by decide)

theorem dropWhile_of_head_not {p : Char → Bool} {l : List Char}
    (h : ∀ c ∈ l, p c = false) : l.dropWhile p = l := by
  cases l with
  | nil => rfl
  | cons c t => simp [List.dropWhile, h c (List.mem_cons_self c t)]

theorem takeWhile_of_all {p : Char → Bool} {l : List Char}
    (h : ∀ c ∈ l, p c = true) : l.takeWhile p = l ∧ l.dropWhile p = [] := by
  induction l with
  | nil => simp
  | cons c t ih =>
    have hc := h c (List.mem_cons_self c t)
    have ht := ih (fun x hx => h x (List.mem_cons_of_mem c hx))
    simp [List.takeWhile, List.dropWhile, hc, ht.1, ht.2]

theorem not_take2_eq {cs : List Char} (hd : ∀ c ∈ cs, c.isDigit = true)
    {a b : Char} (hb : b.isDigit = false) : ¬cs.take 2 = [a, b] := by
  intro h
  have hmem : b ∈ cs.take 2 := by rw [h]; simp
  have := hd b (List.take_subset 2 cs hmem)
  rw [this] at hb
  simp at hb

theorem head_not_of_digits {cs : List Char} (hd : ∀ c ∈ cs, c.isDigit = true)
    {a : Char} (ha : a.isDigit = false) : ¬cs.head? = some a := by
  intro h
  have : a ∈ cs := List.mem_of_mem_head? (by rw [h]; rfl)
  have := hd a this
  rw [this] at ha
  simp at ha

theorem digits_ne_infinity {cs : List Char}
    (hd : ∀ c ∈ cs, c.isDigit = true) : cs ≠ infinityChars := by
  intro h
  have : 'I' ∈ cs := by rw [h]; simp [infinityChars]
  have := hd 'I' this
  simp at this

/-- A non-empty all-digit part goes through `Number` to its exact decimal
value. -/
theorem jsNumberL_digits {cs : List Char} (hne : cs ≠ [])
    (hd : ∀ c ∈ cs, c.isDigit = true) :
    jsNumberL cs = .num (natOfDigits cs) := by
  have hnospace : ∀ c ∈ cs, isSpaceJS c = false := fun c hc => digit_not_space (hd c hc)
  have h1 : cs.dropWhile isSpaceJS = cs := dropWhile_of_head_not hnospace
  have h2 : cs.reverse.dropWhile isSpaceJS = cs.reverse :=
    dropWhile_of_head_not (fun c hc => hnospace c (List.mem_reverse.mp hc))
  unfold jsNumberL
  rw [h1, h2, List.reverse_reverse]
  unfold jsNumberTrimmed
  rw [if_neg hne]
  rw [if_neg (by
    rintro (h | h)
    · exact not_take2_eq hd (by decide) h
    · exact not_take2_eq hd (by decide) h)]
  rw [if_neg (by
    rintro (h | h)
    · exact not_take2_eq hd (by decide) h
    · exact not_take2_eq hd (by decide) h)]
  rw [if_neg (by
    rintro (h | h)
    · exact not_take2_eq hd (by decide) h
    · exact not_take2_eq hd (by decide) h)]
  rw [if_neg (head_not_of_digits hd (by decide))]
  rw [if_neg (head_not_of_digits hd (by decide))]
  rw [if_neg (digits_ne_infinity hd)]
  have htw := takeWhile_of_all hd
  unfold parseDec
  rw [htw.1, htw.2]
  simp [hne]

/-- A value below `2^53` passes the post-`Number` digit validation. -/
theorem isValidPart_natCast {n : ℕ} (h : n < 2 ^ 53) :
    isValidPart (.num (n : ℚ)) = true := by
  unfold isValidPart
  have h1 : (0 : ℚ) ≤ (n : ℚ) := by positivity
  have h2 : ((n : ℚ)).den = 1 := Rat.den_natCast n
  have h3 : (n : ℚ) < ((10 ^ 21 : ℕ) : ℚ) := by
    have h4 : n < 10 ^ 21 := lt_of_lt_of_le h (by norm_num)
    exact Nat.cast_lt.mpr h4
  simp [h1, h2, h3]
  exact lt_of_lt_of_le h (by norm_num)

/-- The `Number` image of a digit part. -/
def natPart (n : ℕ) : JSNum := .num (n : ℚ)

/-- On casts of naturals the comparator loop is the specification loop. -/
theorem cmpParts_eq_spec : ∀ l1 l2 : List ℕ,
    cmpParts (l1.map natPart) (l2.map natPart) = specCompare l1 l2 := by
  intro l1
  induction l1 with
  | nil => intro l2; cases l2 <;> rfl
  | cons a as ih =>
    intro l2
    cases l2 with
    | nil => rfl
    | cons b bs =>
      simp only [List.map_cons, natPart, cmpParts, specCompare, jsNumEq, jsNumGt]
      by_cases hab : a = b
      · subst hab
        rw [if_pos (by simp), if_pos rfl]
        exact ih bs
      · rw [if_neg (by simp [hab]), if_neg hab]
        by_cases hlt : b < a
        · rw [if_pos (by simp [Nat.cast_lt, hlt]), if_pos hlt]
        · rw [if_neg (by simp [Nat.cast_lt]; omega), if_neg hlt]

/-- The parts of a well-formed, `2^53`-bounded version string all validate,
and carry their decimal values. -/
theorem parts_map_of_wellFormed {a : String} (ha : WellFormedVersion a) :
    (splitDot a.toList).map jsNumberL = (partVals a).map natPart := by
  unfold partVals
  rw [List.map_map]
  apply List.map_congr_left
  intro p hp
  have := ha p hp
  exact jsNumberL_digits this.1 this.2


/-! ## Claims C3 and C4: the version comparator -/

theorem specCompare_self : ∀ l : List ℕ, specCompare l l = 0
  | [] => rfl
  | _ :: as => by simp [specCompare, specCompare_self as]

/-- C3 (amended).  For version strings whose dot-separated parts are
well-formed digit text with values below `2^53` (the range where JavaScript
doubles are exact integers), `compare` implements exactly the positional
integer comparison the claim describes — `specCompare`: `1` at the first
index where `b` has no part, immediate resolution at the first differing
values, `-1` when all compared parts are equal but `a` is shorter, `0` on
full equality — and in particular `compare(x,x) = 0`. -/
theorem compareVersions_c3_theorem (a b : String)
    (ha : WellFormedVersion a) (hb : WellFormedVersion b)
    (hba : ∀ p ∈ splitDot a.toList, natOfDigits p < 2 ^ 53)
    (hbb : ∀ p ∈ splitDot b.toList, natOfDigits p < 2 ^ 53) :
    compareVersions a b = some (specCompare (partVals a) (partVals b)) ∧
      (a = b → compareVersions a b = some 0) := by
  have hvalid : ∀ (s : String), (∀ p ∈ splitDot s.toList, natOfDigits p < 2 ^ 53) →
      ((partVals s).map natPart).all isValidPart = true := by
    intro s hs
    rw [List.all_eq_true]
    intro x hx
    rcases List.mem_map.mp hx with ⟨n, hn, rfl⟩
    rcases List.mem_map.mp hn with ⟨p, hp, rfl⟩
    exact isValidPart_natCast (hs p hp)
  have main : compareVersions a b = some (specCompare (partVals a) (partVals b)) := by
    unfold compareVersions
    rw [parts_map_of_wellFormed ha, parts_map_of_wellFormed hb]
    simp [hvalid a hba, hvalid b hbb, cmpParts_eq_spec]
  refine ⟨main, fun hab => ?_⟩
  subst hab
  rw [main, specCompare_self]

/-- C3 witness: the amended comparison at the claim's own examples. -/
theorem compareVersions_c3_witness :
    WellFormedVersion "1.2" ∧ WellFormedVersion "1.2.0" ∧
      compareVersions "1.2" "1.2.0" = some (-1) ∧
      compareVersions "1.2.0" "1.2" = some 1 := by
  have h1 := compareVersions_c3_theorem "1.2" "1.2.0" (by decide) (by decide)
    (by decide) (by decide)
  have h2 := compareVersions_c3_theorem "1.2.0" "1.2" (by decide) (by decide)
    (by decide) (by decide)
  exact ⟨by decide, by decide, by rw [h1.1]; decide, by rw [h2.1]; decide⟩

/-- C3 counterexample.  `"1000000000000000000000"` (the 22-digit `10^21`) is
well-formed digit text, so the claim requires the positional comparison (here
`1`, since `10^21 > 1`), but the comparator yields NaN: JavaScript stringifies
`Number("1000000000000000000000")` as `"1e+21"`, which fails the `^\d+$`
validation. -/
theorem compareVersions_c3_counterexample :
    WellFormedVersion "1000000000000000000000" ∧ WellFormedVersion "1" ∧
      compareVersions "1000000000000000000000" "1" = none := by
  exact ⟨by decide, by decide, by decide⟩

/-- C4 (code bug, evaluation at the failing input).  `"1..2"` splits into
parts `"1"`, `""`, `"2"`, and `""` fails `^\d+$`, so the claim (and the
documented behaviour) require NaN; the code instead returns `-1` because it
validates only after `map(Number)` — `Number("") = 0` and `"0"` passes the
digit test — and then compares `[1,0,2]` against `[1,0,3]`.  (The other half
of the divergence, a non-string second argument throwing instead of NaN, is
visible in the source guard, which tests `version1` twice.) -/
theorem compareVersions_c4_bug :
    splitDot ("1..2".toList) = [['1'], [], ['2']] ∧
      compareVersions "1..2" "1.0.3" = some (-1) := by
  exact ⟨by decide, by decide⟩

/-! ## Claim C5: `checkVersion` -/

/-- C5 (amended).  `needsUpdate` is true exactly when the *normalized*
version compares `-1` against the minimum-version baseline or the
*normalized* version appears in `bannedVersions` (the source performs the
banned lookup after the patch-optional rewrite, not on the raw extracted
string); the result reports the raw extracted string as `version` and
annotates `bannedVersion` with the normalized string exactly on a banned
hit. -/
theorem checkVersion_c5_theorem (library : LibData) (version0 : String) :
    ((checkVersion library version0).needsUpdate = true ↔
      (compareVersions (normalizeVersion library version0) (minVersionString library) =
          some (-1) ∨
        ∃ bv, library.bannedVersions = some bv ∧ normalizeVersion library version0 ∈ bv)) ∧
      (checkVersion library version0).version = version0 ∧
      ((checkVersion library version0).bannedVersion =
        match library.bannedVersions with
        | some bv =>
          if normalizeVersion library version0 ∈ bv then
            some (normalizeVersion library version0)
          else none
        | none => none) := by
  cases hbv : library.bannedVersions with
  | none =>
    have he : checkVersion library version0 =
        { name := library.name,
          needsUpdate := compareVersions (normalizeVersion library version0)
            (minVersionString library) == some (-1),
          minVersion := minVersionString library, version := version0 } := by
      unfold checkVersion
      rw [hbv]
    rw [he]
    simp [hbv]
  | some bv =>
    by_cases hm : normalizeVersion library version0 ∈ bv
    · have he : checkVersion library version0 =
          { name := library.name, needsUpdate := true,
            minVersion := minVersionString library, version := version0,
            bannedVersion := some (normalizeVersion library version0) } := by
        unfold checkVersion
        rw [hbv]
        simp [hm]
      rw [he]
      refine ⟨⟨fun _ => Or.inr ⟨bv, rfl, hm⟩, fun _ => rfl⟩, rfl, ?_⟩
      simp [hm]
    · have he : checkVersion library version0 =
          { name := library.name,
            needsUpdate := compareVersions (normalizeVersion library version0)
              (minVersionString library) == some (-1),
            minVersion := minVersionString library, version := version0 } := by
        unfold checkVersion
        rw [hbv]
        simp [hm]
      rw [he]
      constructor
      · simp only [beq_iff_eq]
        constructor
        · exact fun h => Or.inl h
        · rintro (h | ⟨bv2, hbv2, hm2⟩)
          · exact h
          · cases hbv2
            exact absurd hm2 hm
      · exact ⟨rfl, by simp [hm]⟩

/-- C5 counterexample.  A patch-optional descriptor banning exactly the raw
extracted string `"1.17"`: the claim forces `needsUpdate = true` with a
banned annotation, but the source normalizes to `"1.17.0"` before the banned
lookup, misses the list, and reports `needsUpdate = false` with no
annotation. -/
def c5Library : LibData :=
  { name := some "Lib", minVersion := some ⟨"1.0.", "0"⟩, patchOptional := some true,
    bannedVersions := some ["1.17"] }

/-- C5 counterexample theorem. -/
theorem checkVersion_c5_counterexample :
    c5Library.bannedVersions = some ["1.17"] ∧ "1.17" ∈ ["1.17"] ∧
      (checkVersion c5Library "1.17").needsUpdate = false ∧
      (checkVersion c5Library "1.17").bannedVersion = none := by
  exact ⟨by decide, by decide, by decide, by decide⟩

/-! ## Claims C1, C7 and C10: the library-version analyzer -/

/-- C7.  Merging is reversible: after any sequence of merge operations with
arbitrary override configurations, invoking `merge` with no argument returns
the registry to exactly the saved built-in baseline `original_libraries`
(both as the new module state and as the returned list). -/
theorem merge_c7_theorem (ops : List (Option (List Library))) :
    merge none (ops.foldl (fun st op => (merge op st).1) initState) =
      ({ libraries := original_libraries }, original_libraries) := rfl

theorem checkScript_passed_iff_data (libs : List Library) (js : Script) (website : Website) :
    (checkScript libs js website).passed = true ↔
      (checkScript libs js website).data = none := by
  unfold checkScript
  cases scanLibs libs js <;> simp

theorem jslibsCheck_foldl (libs : List Library) (website : Website) :
    ∀ (l : List Script) (test : LibsTest),
      l.foldl (jslibsStep libs website) test =
        { testName := test.testName, url := test.url,
          passed := test.passed && l.all (fun js => (checkScript libs js website).passed),
          data := test.data ++ l.filterMap (fun js => (checkScript libs js website).data) } := by
  intro l
  induction l with
  | nil => intro test; simp
  | cons js rest ih =>
    intro test
    rw [List.foldl_cons, ih]
    cases hp : (checkScript libs js website).passed with
    | true =>
      have hd : (checkScript libs js website).data = none :=
        (checkScript_passed_iff_data libs js website).mp hp
      simp [jslibsStep, hp, hd, List.filterMap_cons]
    | false =>
      have hd : (checkScript libs js website).data ≠ none := by
        intro h
        rw [(checkScript_passed_iff_data libs js website).mpr h] at hp
        exact Bool.noConfusion hp
      obtain ⟨v, hv⟩ := Option.ne_none_iff_exists'.mp hd
      simp [jslibsStep, hp, hv, List.filterMap_cons]

/-- C1 (amended).  Within each script the registry is scanned in order and
only the first violating descriptor for that script is kept, but the analyzer
does not stop at the first failing script: every script is examined, `data`
collects one violation per failing script in script order, and the check
passes (with `data = []`) exactly when no script carries a recognized
out-of-date or banned library. -/
theorem jslibsCheck_c1_theorem (libs : List Library) (website : Website) :
    jslibsCheck libs website =
      { testName := "jslibs", url := website.url,
        passed := website.js.all (fun js => (checkScript libs js website).passed),
        data := website.js.filterMap (fun js => (checkScript libs js website).data) } ∧
      ((jslibsCheck libs website).passed = true ↔ (jslibsCheck libs website).data = []) := by
  have h := jslibsCheck_foldl libs website website.js
    { testName := "jslibs", url := website.url, passed := true, data := [] }
  have hmain : jslibsCheck libs website =
      { testName := "jslibs", url := website.url,
        passed := website.js.all (fun js => (checkScript libs js website).passed),
        data := website.js.filterMap (fun js => (checkScript libs js website).data) } := by
    unfold jslibsCheck
    rw [h]
    simp
  refine ⟨hmain, ?_⟩
  rw [hmain]
  simp only [List.all_eq_true, List.filterMap_eq_nil_iff]
  constructor
  · intro hall js hjs
    exact (checkScript_passed_iff_data libs js website).mp (hall js hjs)
  · intro hnone js hjs
    exact (checkScript_passed_iff_data libs js website).mpr (hnone js hjs)

/-- C1 counterexample.  A page with two scripts that both carry an outdated
Prototype: the claim requires a single reported violation and an early stop,
but the analyzer reports both (one per failing script, with their own line
numbers). -/
def c1Website : Website :=
  { url := "http://x/",
    content := "<script src=\"http://x/a.js\"></script>\n<script src=\"http://x/b.js\"></script>",
    js := [{ jsUrl := "http://x/a.js",
             content := some "Prototype JavaScript framework, version 1.0.0" },
           { jsUrl := "http://x/b.js",
             content := some "Prototype JavaScript framework, version 1.2.3" }] }

/-- C1 counterexample theorem: the result carries two violation descriptors,
not one. -/
theorem jslibsCheck_c1_counterexample :
    (jslibsCheck original_libraries c1Website).passed = false ∧
      (jslibsCheck original_libraries c1Website).data =
        [{ name := some "Prototype", needsUpdate := true, minVersion := "1.6.1",
           version := "1.0.0", url := some "http://x/a.js", lineNumber := some 1 },
         { name := some "Prototype", needsUpdate := true, minVersion := "1.6.1",
           version := "1.2.3", url := some "http://x/b.js", lineNumber := some 2 }] := by
  exact ⟨by decide, by decide⟩

/-- C10.  When a failing script's URL does not occur in the page markup, the
offset lookup yields `-1`, the prefix taken before that offset is empty, and
the violation is reported with line number 1. -/
theorem checkScript_c10_theorem (libs : List Library) (js : Script) (website : Website)
    (h1 : (checkScript libs js website).passed = false)
    (h2 : jsIndexOf website.content js.jsUrl = -1) :
    ∃ v, (checkScript libs js website).data = some v ∧ v.lineNumber = some 1 := by
  unfold checkScript at h1 ⊢
  cases hscan : scanLibs libs js with
  | none => rw [hscan] at h1; exact Bool.noConfusion h1
  | some result =>
    refine ⟨_, rfl, ?_⟩
    rw [h2]
    rfl

/-- C10 witness: a website whose markup does not mention the failing script's
URL; the reported line number is 1. -/
def c10Website : Website :=
  { url := "http://x/",
    content := "<html>no script tags here</html>",
    js := [{ jsUrl := "http://x/p.js",
             content := some "Prototype JavaScript framework, version 1.0.0" }] }

/-- C10 witness theorem. -/
theorem checkScript_c10_witness :
    (checkScript original_libraries
        { jsUrl := "http://x/p.js",
          content := some "Prototype JavaScript framework, version 1.0.0" }
        c10Website).passed = false ∧
      jsIndexOf c10Website.content "http://x/p.js" = -1 ∧
      ∃ v, (checkScript original_libraries
          { jsUrl := "http://x/p.js",
            content := some "Prototype JavaScript framework, version 1.0.0" }
          c10Website).data = some v ∧ v.lineNumber = some 1 := by
  refine ⟨by decide, by decide, ?_⟩
  exact checkScript_c10_theorem original_libraries _ c10Website (by decide) (by decide)

/-! ## Claims C2, C8 and C9: the markup-consistency analyzer -/

/-- The effective threshold of an element entry: the override when present
and nonzero (a configured `0` is falsy under `||`), else the global
default. -/
def effectiveThreshold (cfg : MarkupConfig) (e : ElementConfig) : ℚ :=
  match e.threshold with
  | some t => if t ≠ 0 then t else cfg.defaultThreshold
  | none => cfg.defaultThreshold

theorem compareMarkup_foldl (load : String → CDoc) (cfg : MarkupConfig) (m1 m2 : String) :
    ∀ (l : List ElementConfig) (acc : CompareResult),
      l.foldl (compareStep load cfg m1 m2) acc =
        { passed := acc.passed && l.all (fun e => (elementStep load cfg m1 m2 e).passed),
          results := acc.results ++ l.map (elementStep load cfg m1 m2) } := by
  intro l
  induction l with
  | nil => intro acc; simp
  | cons e rest ih =>
    intro acc
    rw [List.foldl_cons, ih]
    simp [compareStep, Bool.and_assoc]

/-- C8 (amended).  The comparison produces one result per configured element
in order and passes exactly when every element passes; an element passes
exactly when both counts are zero or `min/max` reaches the effective
threshold, where the effective threshold is the per-element override *when it
is nonzero* (a configured `0` falls back to the global default under the
source's `||`). -/
theorem compareMarkup_c8_theorem (load : String → CDoc) (cfg : MarkupConfig)
    (m1 m2 : String) :
    compareMarkup load cfg m1 m2 =
      { passed := cfg.elements.all (fun e => (elementStep load cfg m1 m2 e).passed),
        results := cfg.elements.map (elementStep load cfg m1 m2) } ∧
      ∀ e : ElementConfig,
        (elementStep load cfg m1 m2 e).element = e.name ∧
        (elementStep load cfg m1 m2 e).threshold = effectiveThreshold cfg e ∧
        (elementStep load cfg m1 m2 e).edgeCount = load m1 e.name ∧
        (elementStep load cfg m1 m2 e).chromeCount = load m2 e.name ∧
        ((elementStep load cfg m1 m2 e).passed = true ↔
          (max (load m1 e.name) (load m2 e.name) = 0 ∨
            ((min (load m1 e.name) (load m2 e.name) : ℚ) /
                ((max (load m1 e.name) (load m2 e.name) : ℕ) : ℚ) ≥
              effectiveThreshold cfg e))) := by
  constructor
  · unfold compareMarkup
    rw [compareMarkup_foldl]
    simp
  · intro e
    refine ⟨rfl, rfl, rfl, rfl, ?_⟩
    unfold elementStep effectiveThreshold countElements
    by_cases hz : max (load m1 e.name) (load m2 e.name) ≤ 0
    · simp [hz, Nat.le_zero.mp hz]
    · have hz' : ¬(max (load m1 e.name) (load m2 e.name) = 0) := fun h => hz (le_of_eq h)
      simp [hz, hz']

/-- C8 counterexample.  An element configured with threshold `0` and counts
`0` and `1`: the claim's rule (`ratio 0 ≥ threshold 0`) passes the element,
but the `||` fallback replaces the configured `0` with the default `1/2`, so
the element — and the whole comparison — fails. -/
def c8cfg : MarkupConfig :=
  { elements := [{ name := "div", threshold := some 0 }], defaultThreshold := 1 / 2,
    excludeList := [] }

/-- C8 counterexample count oracle. -/
def c8load : String → CDoc := fun m _ => if m = "A" then 0 else 1

/-- C8 counterexample theorem. -/
theorem compareMarkup_c8_counterexample :
    (compareMarkup c8load c8cfg "A" "B").passed = false ∧
      ((min (c8load "A" "div") (c8load "B" "div") : ℚ) /
          ((max (c8load "A" "div") (c8load "B" "div") : ℕ) : ℚ) ≥ 0) := by
  constructor
  · simp [compareMarkup, compareStep, elementStep, countElements, c8cfg, c8load]
  · simp [c8load]

/-- C9 (amended).  `getBody`/`decompress` behaviour: a truthy declared
encoding of gzip or deflate decompresses via the corresponding zlib
collaborator, any other truthy declared encoding is a terminal
unknown-encoding failure, and with no (or an empty, hence falsy) encoding
header a *present* body — even a zero-length buffer — resolves to its decoded
text, while only an absent (`null`) body is the terminal empty-body
failure. -/
theorem getBody_c9_theorem (gz infl : Option Bytes → Except String Bytes)
    (dec : Bytes → String) (response : Response) (body : Option Bytes) :
    (response.contentEncoding = some "gzip" → ∀ d, gz body = .ok d →
      getBody gz infl dec response body = .ok { body := dec d, compression := "gzip" }) ∧
    (response.contentEncoding = some "deflate" → ∀ d, infl body = .ok d →
      getBody gz infl dec response body = .ok { body := dec d, compression := "deflate" }) ∧
    (∀ enc, response.contentEncoding = some enc → enc ≠ "" → enc ≠ "gzip" → enc ≠ "deflate" →
      getBody gz infl dec response body = .error ("Unknown content encoding: " ++ enc)) ∧
    ((response.contentEncoding = none ∨ response.contentEncoding = some "") →
      ∀ b, body = some b →
        getBody gz infl dec response body = .ok { body := dec b, compression := "none" }) ∧
    ((response.contentEncoding = none ∨ response.contentEncoding = some "") → body = none →
      getBody gz infl dec response body = .error "Error found: Empty body") := by
  refine ⟨?_, ?_, ?_, ?_, ?_⟩
  · intro henc d hd
    simp [getBody, henc, decompress, hd]
  · intro henc d hd
    simp [getBody, henc, decompress, hd]
  · intro enc henc h1 h2 h3
    simp [getBody, henc, h1, decompress, h2, h3]
  · rintro (henc | henc) b hb <;> simp [getBody, henc, hb]
  · rintro (henc | henc) hb <;> simp [getBody, henc, hb]

/-- C9 witness oracles: a decoder and zlib stubs for concrete instantiation. -/
def c9dec : Bytes → String := fun b => if b = [7] then "G" else ""

/-- C9 witness gunzip stub. -/
def c9gz : Option Bytes → Except String Bytes := fun _ => .ok [7]

/-- C9 witness inflate stub. -/
def c9infl : Option Bytes → Except String Bytes := fun _ => .error "bad stream"

/-- C9 witness theorem: the gzip clause at a concrete response. -/
theorem getBody_c9_witness :
    (Response.mk (some "gzip")).contentEncoding = some "gzip" ∧
      c9gz (some [1, 2]) = .ok [7] ∧
      getBody c9gz c9infl c9dec { contentEncoding := some "gzip" } (some [1, 2]) =
        .ok { body := "G", compression := "gzip" } := by
  refine ⟨rfl, rfl, ?_⟩
  have h := (getBody_c9_theorem c9gz c9infl c9dec { contentEncoding := some "gzip" }
    (some [1, 2])).1 rfl [7] rfl
  rw [h]
  simp [c9dec]

/-- C9 counterexample.  With no content-encoding header and a present but
zero-length body (an empty `Buffer` is truthy), `getBody` resolves to the
empty text instead of the empty-body failure the claim requires. -/
theorem getBody_c9_counterexample :
    getBody c9gz c9infl c9dec { contentEncoding := none } (some []) =
      .ok { body := "", compression := "none" } := by
  simp [getBody, c9dec]

/-- C2 configuration for the witness. -/
def c2cfg : MarkupConfig :=
  { elements := [{ name := "div", threshold := none }], defaultThreshold := 1 / 2,
    excludeList := [] }

/-- C2 witness count oracle: 10 visible elements in the primary markup, 4 in
the second fetch, 9 in the third. -/
def c2load : String → CDoc := fun m _ => if m = "P" then 10 else if m = "S1" then 4 else 9

/-- C2 witness decoder. -/
def c2dec : Bytes → String := fun b => if b = [1] then "S1" else "S2"

/-- C2 witness gunzip stub (never consulted: no encoding header is set). -/
def c2gz : Option Bytes → Except String Bytes := fun _ => .ok []

/-- C2 witness inflate stub (never consulted). -/
def c2infl : Option Bytes → Except String Bytes := fun _ => .error "unused"

/-- C2 witness website. -/
def c2website : MWebsite :=
  { url := "http://x/", originalUrl := "http://x/", content := "P" }

/-- C2.  Whenever the check is not excluded, the first fetch and its body
resolution succeed, and the first comparison (primary markup versus the
secondary-identity body) fails, the outcome is decided by the
retry-comparison between the second and third responses (the third fetch
goes through the same secondary-identity `request` instance): if the
retry-comparison also fails the check resolves `passed = true`,
`transient = true` with the explanatory message as `data`; if it passes the
check resolves `passed = false` with the original per-element results as
`data`. -/
theorem markupCheck_c2_theorem (load : String → CDoc) (cfg : MarkupConfig)
    (gz infl : Option Bytes → Except String Bytes) (dec : Bytes → String)
    (website : MWebsite) (response : Response) (body : Option Bytes)
    (response2 : Response) (body2 : Option Bytes) (r r2 : DecodedBody)
    (hex : isExcluded cfg website.originalUrl = false)
    (hb : getBody gz infl dec response body = .ok r)
    (hc1 : (compareMarkup load cfg website.content r.body).passed = false)
    (hb2 : getBody gz infl dec response2 body2 = .ok r2) :
    ((compareMarkup load cfg r.body r2.body).passed = false →
      markupCheck load cfg gz infl dec website (.ok (response, body)) (.ok (response2, body2)) =
        .ok { testName := "markup", passed := true, transient := some true,
              data := .msg "Site candidate for exclude list. The HTML markup for this site presents differences on each request regardless of the user agent." }) ∧
    ((compareMarkup load cfg r.body r2.body).passed = true →
      markupCheck load cfg gz infl dec website (.ok (response, body)) (.ok (response2, body2)) =
        .ok { testName := "markup", passed := false, transient := some false,
              data := .results (compareMarkup load cfg website.content r.body).results }) := by
  constructor
  · intro hc2
    unfold markupCheck
    simp [hex, hb, hb2, hc1, hc2]
  · intro hc2
    unfold markupCheck
    simp [hex, hb, hb2, hc1, hc2]

/-- C2 witness: concrete instantiation hitting the transient branch (counts
10 vs 4 fails at threshold 1/2; the retry 4 vs 9 also fails). -/
theorem markupCheck_c2_witness :
    isExcluded c2cfg c2website.originalUrl = false ∧
      (compareMarkup c2load c2cfg "P" "S1").passed = false ∧
      (compareMarkup c2load c2cfg "S1" "S2").passed = false ∧
      markupCheck c2load c2cfg c2gz c2infl c2dec c2website
          (.ok ({ contentEncoding := none }, some [1]))
          (.ok ({ contentEncoding := none }, some [2])) =
        .ok { testName := "markup", passed := true, transient := some true,
              data := .msg "Site candidate for exclude list. The HTML markup for this site presents differences on each request regardless of the user agent." } := by
  have hb : getBody c2gz c2infl c2dec { contentEncoding := none } (some [1]) =
      .ok { body := "S1", compression := "none" } := by simp [getBody, c2dec]
  have hb2 : getBody c2gz c2infl c2dec { contentEncoding := none } (some [2]) =
      .ok { body := "S2", compression := "none" } := by
    simp [getBody, c2dec]
    decide
  have hc1 : (compareMarkup c2load c2cfg "P" "S1").passed = false := by
    simp [compareMarkup, compareStep, elementStep, countElements, c2cfg, c2load]
    norm_num
  have hc2 : (compareMarkup c2load c2cfg "S1" "S2").passed = false := by
    simp [compareMarkup, compareStep, elementStep, countElements, c2cfg, c2load]
    norm_num
  have h := (markupCheck_c2_theorem c2load c2cfg c2gz c2infl c2dec c2website
    { contentEncoding := none } (some [1]) { contentEncoding := none } (some [2])
    { body := "S1", compression := "none" } { body := "S2", compression := "none" }
    (by simp [isExcluded, c2cfg]) hb (by exact hc1) hb2).1 (by exact hc2)
  exact ⟨by simp [isExcluded, c2cfg], hc1, hc2, h⟩

/-! ## Claim C6: registry merging

Specification-side characterization of `mergeConfig` (the amended claim):
each default is overlaid by the override matching its truthy name, and the
truthy-named overrides matching no default are appended — in override order —
with the generic `defaultCheck` extraction rule. -/

/-- Position of the first entry with the given truthy name. -/
def idxOfName (nm : String) : List Library → Option Nat
  | [] => none
  | d :: rest =>
    if truthyName d = some nm then some 0
    else (idxOfName nm rest).map (· + 1)

/-- The override entry addressing a given default, if any. -/
def overrideFor (libconfig : List Library) (d : Library) : Option Library :=
  match truthyName d with
  | some nm => libconfig.find? (fun o => o.name == some nm)
  | none => none

/-- A default after the override loop: overlaid by its override when one
exists. -/
def applyOverride (libconfig : List Library) (d : Library) : Library :=
  match overrideFor libconfig d with
  | some o => overlayLibrary d o
  | none => d

/-- The overrides that are appended: truthy-named and matching no default;
each receives the generic rule. -/
def appendedSpec (defaults libconfig : List Library) : List Library :=
  (libconfig.filter (fun o =>
      match truthyName o with
      | some nm => (idxOfName nm defaults).isNone
      | none => false)).map (fun o => { o with check := some defaultCheck })

/-- Modelled from the spec: the merged registry as claim C6 describes it
(with the duplicate-name amendment). -/
def mergeSpec (defaults libconfig : List Library) : List Library :=
  defaults.map (applyOverride libconfig) ++ appendedSpec defaults libconfig

theorem truthyName_some {d : Library} {nm : String} (h : truthyName d = some nm) :
    d.name = some nm ∧ nm ≠ "" := by
  unfold truthyName at h
  cases hn : d.name with
  | none => rw [hn] at h; exact Option.noConfusion h
  | some str =>
    simp only [hn] at h
    by_cases hs : str = ""
    · rw [if_pos hs] at h; exact Option.noConfusion h
    · rw [if_neg hs] at h
      cases h
      exact ⟨rfl, hs⟩

theorem idxOfName_none_iff {nm : String} : ∀ {l : List Library},
    idxOfName nm l = none ↔ ∀ d ∈ l, truthyName d ≠ some nm := by
  intro l
  induction l with
  | nil => simp [idxOfName]
  | cons d rest ih =>
    unfold idxOfName
    by_cases hd : truthyName d = some nm
    · simp [hd]
    · simp [hd, Option.map_eq_none', ih]

theorem idxOfName_congr {nm : String} : ∀ {l1 l2 : List Library},
    l1.map truthyName = l2.map truthyName → idxOfName nm l1 = idxOfName nm l2 := by
  intro l1
  induction l1 with
  | nil =>
    intro l2 h
    cases l2 with
    | nil => rfl
    | cons x xs => exact absurd h (by simp)
  | cons d rest ih =>
    intro l2 h
    cases l2 with
    | nil => exact absurd h (by simp)
    | cons e es =>
      simp only [List.map_cons, List.cons.injEq] at h
      unfold idxOfName
      rw [h.1, ih h.2]

theorem filterMap_congr_of_map_eq {α β γ : Type} (f : α → Option γ) (g : β → Option γ) :
    ∀ {l1 : List α} {l2 : List β}, l1.map f = l2.map g → l1.filterMap f = l2.filterMap g := by
  intro l1
  induction l1 with
  | nil =>
    intro l2 h
    cases l2 with
    | nil => rfl
    | cons x xs => exact absurd h (by simp)
  | cons a rest ih =>
    intro l2 h
    cases l2 with
    | nil => exact absurd h (by simp)
    | cons b bs =>
      simp only [List.map_cons, List.cons.injEq] at h
      rw [List.filterMap_cons, List.filterMap_cons, h.1, ih h.2]

theorem buildLibmapFrom_congr : ∀ {l1 l2 : List Library},
    l1.map truthyName = l2.map truthyName → ∀ i, buildLibmapFrom i l1 = buildLibmapFrom i l2 := by
  intro l1
  induction l1 with
  | nil =>
    intro l2 h i
    cases l2 with
    | nil => rfl
    | cons x xs => exact absurd h (by simp)
  | cons d rest ih =>
    intro l2 h i
    cases l2 with
    | nil => exact absurd h (by simp)
    | cons e es =>
      simp only [List.map_cons, List.cons.injEq] at h
      unfold buildLibmapFrom
      rw [h.1, ih h.2]

theorem buildLibmapFrom_append : ∀ (xs ys : List Library) (i : Nat),
    buildLibmapFrom i (xs ++ ys) =
      buildLibmapFrom (i + xs.length) ys ++ buildLibmapFrom i xs := by
  intro xs
  induction xs with
  | nil => intro ys i; simp [buildLibmapFrom]
  | cons x xs ih =>
    intro ys i
    rw [List.cons_append]
    simp only [buildLibmapFrom]
    rw [ih ys (i + 1), List.append_assoc, List.length_cons]
    have h2 : i + 1 + xs.length = i + (xs.length + 1) := by omega
    rw [h2]

theorem lookupIdx_append (m1 m2 : List (String × Nat)) (k : String) :
    lookupIdx (m1 ++ m2) k =
      (match lookupIdx m1 k with
       | some v => some v
       | none => lookupIdx m2 k) := by
  induction m1 with
  | nil => simp [lookupIdx]
  | cons p rest ih =>
    by_cases hp : p.1 = k
    · simp [lookupIdx, hp]
    · simp only [List.cons_append, lookupIdx, if_neg hp]
      exact ih

theorem lookupIdx_buildFrom_none {nm : String} : ∀ {base : List Library},
    (∀ d ∈ base, truthyName d ≠ some nm) → ∀ i, lookupIdx (buildLibmapFrom i base) nm = none := by
  intro base
  induction base with
  | nil => intro _ i; rfl
  | cons d rest ih =>
    intro h i
    unfold buildLibmapFrom
    rw [lookupIdx_append]
    rw [ih (fun x hx => h x (List.mem_cons_of_mem d hx)) (i + 1)]
    have hd := h d (List.mem_cons_self d rest)
    cases ht : truthyName d with
    | none => rfl
    | some str =>
      have hstr : str ≠ nm := fun he => hd (by rw [ht, he])
      simp [lookupIdx, hstr]

/-- With pairwise-distinct truthy names the map lookup finds exactly the
position of the named default. -/
theorem lookupIdx_buildFrom (nm : String) : ∀ {base : List Library},
    (base.filterMap truthyName).Nodup →
    ∀ i, lookupIdx (buildLibmapFrom i base) nm = (idxOfName nm base).map (· + i) := by
  intro base
  induction base with
  | nil => intro _ i; rfl
  | cons d rest ih =>
    intro hnd i
    simp only [List.filterMap_cons] at hnd
    simp only [buildLibmapFrom, idxOfName]
    rw [lookupIdx_append]
    cases ht : truthyName d with
    | some str =>
      simp only [ht] at hnd ⊢
      have hnd' : (rest.filterMap truthyName).Nodup := hnd.of_cons
      have hstr_notin : str ∉ rest.filterMap truthyName := (List.nodup_cons.mp hnd).1
      by_cases hs : str = nm
      · subst hs
        have hnone : ∀ x ∈ rest, truthyName x ≠ some str := fun x hx he =>
          hstr_notin (List.mem_filterMap.mpr ⟨x, hx, he⟩)
        rw [lookupIdx_buildFrom_none hnone (i + 1)]
        simp [lookupIdx]
      · have hne : ¬(some str = some nm) := fun he => hs (Option.some.inj he)
        rw [ih hnd' (i + 1), if_neg hne]
        cases hidx : idxOfName nm rest with
        | none => simp [lookupIdx, hs]
        | some j =>
          have harith : j + (i + 1) = j + 1 + i := by omega
          simp [lookupIdx, hs, harith]
    | none =>
      simp only [ht] at hnd ⊢
      rw [ih hnd (i + 1)]
      cases hidx : idxOfName nm rest with
      | none => simp [lookupIdx]
      | some j =>
        have harith : j + (i + 1) = j + 1 + i := by omega
        simp [lookupIdx, harith]


theorem truthyName_none {o : Library} (h : truthyName o = none) :
    o.name = none ∨ o.name = some "" := by
  unfold truthyName at h
  cases hn : o.name with
  | none => exact Or.inl rfl
  | some str =>
    simp only [hn] at h
    by_cases hs : str = ""
    · exact Or.inr (by rw [hs])
    · rw [if_neg hs] at h
      exact Option.noConfusion h

theorem applyOverride_nil (d : Library) : applyOverride [] d = d := by
  cases ht : truthyName d <;> simp [applyOverride, overrideFor, ht]

theorem applyOverride_of_none {c : List Library} {d : Library}
    (h : truthyName d = none) : applyOverride c d = d := by
  simp [applyOverride, overrideFor, h]

theorem applyOverride_cons_miss {o : Library} {c : List Library} {d : Library} {nm : String}
    (h : truthyName d = some nm) (ho : o.name ≠ some nm) :
    applyOverride (o :: c) d = applyOverride c d := by
  have hbeq : (o.name == some nm) = false := beq_eq_false_iff_ne.mpr ho
  simp [applyOverride, overrideFor, h, List.find?_cons, hbeq]

theorem applyOverride_cons_hit {o : Library} {c : List Library} {d : Library} {nm : String}
    (h : truthyName d = some nm) (ho : o.name = some nm) :
    applyOverride (o :: c) d = overlayLibrary d o := by
  have hbeq : (o.name == some nm) = true := by rw [ho]; simp
  simp [applyOverride, overrideFor, h, List.find?_cons, hbeq]

theorem applyOverride_no_match {c : List Library} {d : Library} {nm : String}
    (h : truthyName d = some nm) (hc : ∀ o' ∈ c, o'.name ≠ some nm) :
    applyOverride c d = d := by
  have : c.find? (fun o => o.name == some nm) = none :=
    List.find?_eq_none.mpr (fun o ho => by simp [hc o ho])
  simp [applyOverride, overrideFor, h, this]

theorem overlay_truthyName {d o : Library} {nm : String}
    (ho : o.name = some nm) (hnm : nm ≠ "") :
    truthyName (overlayLibrary d o) = some nm := by
  simp [truthyName, overlayLibrary, ho, hnm]

theorem check_update_truthyName (o : Library) :
    truthyName { o with check := some defaultCheck } = truthyName o := rfl

/-- Skipping an override with a falsy name leaves the specification
unchanged. -/
theorem mergeSpec_cons_skip {o : Library} (rest : List Library) (base : List Library)
    (ht : truthyName o = none) :
    mergeSpec base (o :: rest) = mergeSpec base rest := by
  unfold mergeSpec
  congr 1
  · apply List.map_congr_left
    intro d _
    cases htd : truthyName d with
    | none => rw [applyOverride_of_none htd, applyOverride_of_none htd]
    | some nm =>
      have hnm := (truthyName_some htd).2
      have ho : o.name ≠ some nm := by
        rcases truthyName_none ht with h | h <;> rw [h]
        · exact fun he => Option.noConfusion he
        · exact fun he => hnm (Option.some.inj he).symm
      exact applyOverride_cons_miss htd ho
  · unfold appendedSpec
    rw [List.filter_cons]
    simp [ht]

/-- Names after overlaying the hit position are unchanged. -/
theorem setOverlay_names {o : Library} {nm : String} (ho : o.name = some nm)
    (hnm : nm ≠ "") :
    ∀ (base : List Library) (i : Nat), idxOfName nm base = some i →
      (base.set i (overlayLibrary (base.getD i default) o)).map truthyName =
        base.map truthyName := by
  intro base
  induction base with
  | nil => intro i h; exact Option.noConfusion h
  | cons d bs ih =>
    intro i h
    unfold idxOfName at h
    by_cases htd : truthyName d = some nm
    · rw [if_pos htd] at h
      cases h
      simp only [List.set_cons_zero, List.getD_cons_zero, List.map_cons]
      rw [overlay_truthyName ho hnm, htd]
    · rw [if_neg htd] at h
      cases hj : idxOfName nm bs with
      | none => rw [hj] at h; exact Option.noConfusion h
      | some j =>
        rw [hj] at h
        cases h
        simp only [List.set_cons_succ, List.getD_cons_succ, List.map_cons]
        rw [ih j hj]

/-- The overlaid registry seen through the remaining overrides equals the
original registry seen through the full override list (hit case). -/
theorem mapPart_hit {o : Library} {nm : String} {rest : List Library}
    (ho : o.name = some nm) (hnm : nm ≠ "")
    (hrest : ∀ o' ∈ rest, o'.name ≠ some nm) :
    ∀ (base : List Library) (i : Nat),
      (base.filterMap truthyName).Nodup →
      idxOfName nm base = some i →
      (base.set i (overlayLibrary (base.getD i default) o)).map (applyOverride rest) =
        base.map (applyOverride (o :: rest)) := by
  intro base
  induction base with
  | nil => intro i _ h; exact Option.noConfusion h
  | cons d bs ih =>
    intro i hnd h
    simp only [List.filterMap_cons] at hnd
    unfold idxOfName at h
    by_cases htd : truthyName d = some nm
    · rw [if_pos htd] at h
      cases h
      simp only [List.set_cons_zero, List.getD_cons_zero, List.map_cons]
      simp only [htd] at hnd
      have hnotin : nm ∉ bs.filterMap truthyName := (List.nodup_cons.mp hnd).1
      congr 1
      · rw [applyOverride_cons_hit htd ho]
        exact applyOverride_no_match (overlay_truthyName ho hnm) hrest
      · apply List.map_congr_left
        intro d' hd'
        cases htd' : truthyName d' with
        | none => rw [applyOverride_of_none htd', applyOverride_of_none htd']
        | some nm' =>
          have hne : nm' ≠ nm := fun he =>
            hnotin (List.mem_filterMap.mpr ⟨d', hd', by rw [htd', he]⟩)
          have hone : o.name ≠ some nm' := by
            rw [ho]
            exact fun he => hne (Option.some.inj he).symm
          rw [applyOverride_cons_miss htd' hone]
    · rw [if_neg htd] at h
      cases hj : idxOfName nm bs with
      | none => rw [hj] at h; exact Option.noConfusion h
      | some j =>
        rw [hj] at h
        cases h
        simp only [List.set_cons_succ, List.getD_cons_succ, List.map_cons]
        have hndbs : (bs.filterMap truthyName).Nodup := by
          cases htn : truthyName d with
          | none => simpa [htn] using hnd
          | some str => exact (by simpa [htn] using hnd : (str :: _).Nodup).of_cons
        congr 1
        · cases htdc : truthyName d with
          | none => rw [applyOverride_of_none htdc, applyOverride_of_none htdc]
          | some nm_d =>
            have hone : o.name ≠ some nm_d := by
              rw [ho]
              intro he
              exact htd (by rw [htdc, Option.some.inj he])
            rw [applyOverride_cons_miss htdc hone]
        · exact ih j hndbs hj

/-- Source `appendedSpec` depends on the defaults only through their names. -/
theorem appendedSpec_congr {b1 b2 : List Library}
    (h : b1.map truthyName = b2.map truthyName) (c : List Library) :
    appendedSpec b1 c = appendedSpec b2 c := by
  unfold appendedSpec
  congr 1
  apply List.filter_congr
  intro o _
  cases ht : truthyName o with
  | none => rfl
  | some nm => simp [idxOfName_congr h]

theorem idxOfName_append_miss {nm : String} {o' : Library}
    (h : truthyName o' ≠ some nm) :
    ∀ base : List Library, idxOfName nm (base ++ [o']) = idxOfName nm base := by
  intro base
  induction base with
  | nil => simp [idxOfName, h]
  | cons d bs ih =>
    simp only [List.cons_append]
    unfold idxOfName
    rw [ih]

/-- C6 (amended).  With names unique within the defaults and within the
override list (the data model's invariant), `mergeConfig` produces exactly:
every default overlaid field-by-field by the override matching its truthy
name (absent fields keep the default's values, nameless overrides are
ignored), followed by the truthy-named overrides matching no default, in
order, each given the generic `defaultCheck` extraction rule.  (Without the
uniqueness proviso, a later override whose name duplicates an earlier
appended override overlays that entry instead of being appended — the
counterexample.) -/
theorem mergeConfig_c6_theorem :
    ∀ (libconfig defaults : List Library),
      (defaults.filterMap truthyName).Nodup →
      (libconfig.filterMap truthyName).Nodup →
      mergeConfig defaults libconfig = mergeSpec defaults libconfig := by
  intro libconfig
  induction libconfig with
  | nil =>
    intro base hb _
    unfold mergeConfig mergeSpec appendedSpec
    simp only [List.foldl_nil, List.filter_nil, List.map_nil, List.append_nil]
    have hmapid : base.map (applyOverride []) = base.map id :=
      List.map_congr_left (fun d _ => applyOverride_nil d)
    rw [hmapid, List.map_id]
  | cons o rest ih =>
    intro base hb hc
    unfold mergeConfig at ih ⊢
    rw [List.foldl_cons]
    cases ht : truthyName o with
    | none =>
      have hstep : mergeStep (base, buildLibmap base) o = (base, buildLibmap base) := by
        unfold mergeStep
        rw [ht]
      rw [hstep]
      have hc' : (rest.filterMap truthyName).Nodup := by
        simpa [List.filterMap_cons, ht] using hc
      rw [ih base hb hc']
      exact (mergeSpec_cons_skip rest base ht).symm
    | some nm =>
      have hcc : (nm :: rest.filterMap truthyName).Nodup := by
        simpa [List.filterMap_cons, ht] using hc
      have hc' : (rest.filterMap truthyName).Nodup := hcc.of_cons
      have hnm_notin_rest : nm ∉ rest.filterMap truthyName := (List.nodup_cons.mp hcc).1
      have honame : o.name = some nm := (truthyName_some ht).1
      have hnmne : nm ≠ "" := (truthyName_some ht).2
      have hrest : ∀ o' ∈ rest, o'.name ≠ some nm := by
        intro o' ho' he
        apply hnm_notin_rest
        refine List.mem_filterMap.mpr ⟨o', ho', ?_⟩
        simp [truthyName, he, hnmne]
      have hlk := lookupIdx_buildFrom nm hb 0
      cases hidx : idxOfName nm base with
      | some i =>
        have hlk' : lookupIdx (buildLibmap base) nm = some i := by
          unfold buildLibmap
          rw [hlk, hidx]
          simp
        have hstep : mergeStep (base, buildLibmap base) o =
            (base.set i (overlayLibrary (base.getD i default) o), buildLibmap base) := by
          unfold mergeStep
          simp only [ht, hlk']
        rw [hstep]
        have hnames : (base.set i (overlayLibrary (base.getD i default) o)).map truthyName =
            base.map truthyName := setOverlay_names honame hnmne base i hidx
        have hmapeq : buildLibmap base =
            buildLibmap (base.set i (overlayLibrary (base.getD i default) o)) := by
          unfold buildLibmap
          exact (buildLibmapFrom_congr hnames 0).symm
        rw [hmapeq]
        have hb' : ((base.set i (overlayLibrary (base.getD i default) o)).filterMap
            truthyName).Nodup := by
          rw [filterMap_congr_of_map_eq truthyName truthyName hnames]
          exact hb
        rw [ih _ hb' hc']
        unfold mergeSpec
        rw [mapPart_hit honame hnmne hrest base i hb hidx]
        rw [appendedSpec_congr hnames rest]
        congr 1
        unfold appendedSpec
        rw [List.filter_cons]
        simp [ht, hidx]
      | none =>
        have hlk' : lookupIdx (buildLibmap base) nm = none := by
          unfold buildLibmap
          rw [hlk, hidx]
          rfl
        have hstep : mergeStep (base, buildLibmap base) o =
            (base ++ [{ o with check := some defaultCheck }],
              (nm, base.length) :: buildLibmap base) := by
          unfold mergeStep
          simp only [ht, hlk']
        rw [hstep]
        have ho'truthy : truthyName { o with check := some defaultCheck } = some nm := by
          rw [check_update_truthyName]
          exact ht
        have hmapeq : ((nm, base.length) :: buildLibmap base) =
            buildLibmap (base ++ [{ o with check := some defaultCheck }]) := by
          unfold buildLibmap
          rw [buildLibmapFrom_append base _ 0]
          simp [buildLibmapFrom, ho'truthy]
        rw [hmapeq]
        have hnotin_base : ∀ d ∈ base, truthyName d ≠ some nm := idxOfName_none_iff.mp hidx
        have hb' : (((base ++ [{ o with check := some defaultCheck }]).filterMap
            truthyName)).Nodup := by
          rw [List.filterMap_append]
          have hone : List.filterMap truthyName [{ o with check := some defaultCheck }] =
              [nm] := by simp [ho'truthy]
          rw [hone, List.nodup_append]
          refine ⟨hb, List.nodup_singleton nm, ?_⟩
          intro a ha hmem
          rw [List.mem_singleton] at hmem
          subst hmem
          rcases List.mem_filterMap.mp ha with ⟨d, hd, hdt⟩
          exact hnotin_base d hd hdt
        rw [ih _ hb' hc']
        unfold mergeSpec
        rw [List.map_append]
        have hgo' : applyOverride rest { o with check := some defaultCheck } =
            { o with check := some defaultCheck } :=
          applyOverride_no_match ho'truthy hrest
        have hmapbase : base.map (applyOverride rest) =
            base.map (applyOverride (o :: rest)) := by
          apply List.map_congr_left
          intro d hd
          cases htd : truthyName d with
          | none => rw [applyOverride_of_none htd, applyOverride_of_none htd]
          | some nm_d =>
            have hone : o.name ≠ some nm_d := by
              rw [honame]
              intro he
              exact hnotin_base d hd (by rw [htd, ← Option.some.inj he])
            rw [applyOverride_cons_miss htd hone]
        have happend : appendedSpec (base ++ [{ o with check := some defaultCheck }]) rest =
            appendedSpec base rest := by
          unfold appendedSpec
          congr 1
          apply List.filter_congr
          intro o2 ho2
          cases hto2 : truthyName o2 with
          | none => rfl
          | some nm2 =>
            have hne : truthyName { o with check := some defaultCheck } ≠ some nm2 := by
              rw [ho'truthy]
              intro he
              exact hnm_notin_rest
                (List.mem_filterMap.mpr ⟨o2, ho2, by rw [hto2, ← Option.some.inj he]⟩)
            simp [idxOfName_append_miss hne base]
        rw [happend, hmapbase]
        have happSpec : appendedSpec base (o :: rest) =
            { o with check := some defaultCheck } :: appendedSpec base rest := by
          unfold appendedSpec
          rw [List.filter_cons]
          simp [ht, hidx]
        rw [happSpec]
        simp [hgo', List.append_assoc]

/-- C6 witness inputs: one built-in default and one new-named override. -/
def c6Override : Library :=
  { name := some "Angular", matchRe := some "angular" }

/-- C6 witness: the amended characterization at a concrete registry. -/
theorem mergeConfig_c6_witness :
    (([prototypeLibrary] : List Library).filterMap truthyName).Nodup ∧
      (([c6Override] : List Library).filterMap truthyName).Nodup ∧
      mergeConfig [prototypeLibrary] [c6Override] = mergeSpec [prototypeLibrary] [c6Override] := by
  refine ⟨?_, ?_, ?_⟩
  · simp [truthyName, prototypeLibrary]
  · simp [truthyName, c6Override]
  · exact mergeConfig_c6_theorem [c6Override] [prototypeLibrary]
      (by simp [truthyName, prototypeLibrary]) (by simp [truthyName, c6Override])

/-- C6 counterexample overrides: two entries with the same new name. -/
def c6o1 : Library :=
  { name := some "Widget", matchRe := some "Widget v(\\d+)" }

/-- Second same-named override. -/
def c6o2 : Library :=
  { name := some "Widget", matchRe := some "Widget version (\\d+)" }

/-- C6 counterexample.  Both overrides carry a (truthy) name matching no
default, so the claim appends each as a new descriptor — predicting two
entries — but the merged registry holds a single descriptor: the second
override overlays the one the first appended. -/
theorem mergeConfig_c6_counterexample :
    truthyName c6o1 = some "Widget" ∧ truthyName c6o2 = some "Widget" ∧
      (mergeConfig [] [c6o1, c6o2]).length = 1 ∧
      (mergeConfig [] [c6o1, c6o2]).map (fun l => l.matchRe) =
        [some "Widget version (\\d+)"] := by
  exact ⟨rfl, rfl, rfl, rfl⟩

end DXCrawler

